import Mathlib

/-!
# Pending role-membership changes of the group members sub-tab

A shallow embedding of the pending-change tracker and the effective-permission
calculator of `LLPanelGroupMembersSubTab` (`indra/newview/llpanelgrouproles.cpp`), of the
search filter of `LLPanelGroupSubTab`, of the tab switch of `LLPanelGroupRoles`, of the
role deletion and action check of `LLPanelGroupRolesSubTab`, of the permission helpers
`agentCanAddToRole` and `agentCanRemoveFromRole`, and of the group chat listener
(`indra/newview/groupchatlistener.cpp`).

* `std::map` objects are association lists with strictly increasing keys
  (`mapFind`, `mapInsert`, `mapErase`); iteration follows the list, that is,
  ascending key order, like a `std::map` iterator.
* The fields of the sub-tab that the tracker reads and writes form the record
  `LLPanelGroupMembersSubTab`; member functions take the record and return the
  new record together with the calls they make on the group manager.
* `LLGroupMgr::getInstance()->getGroupData(mGroupID)` is the argument `gdatap`
  (`none` is the null pointer); `mMembersList->getAllSelected()` is the argument
  `selection`.
-/

namespace GroupRoles

/-- An `LLUUID`, ordered the way `std::map<LLUUID, _>` orders its keys. The null id is `0`. -/
abbrev LLUUID := Nat

/-- A power bitmask (`U64`); only bitwise OR and AND are applied to it. -/
abbrev U64 := Nat

/-- The empty power mask. -/
def GP_NO_POWERS : U64 := 0

/-- Modelled from the spec: the enum `LLRoleMemberChangeType` is declared in a header that is
not among the sources; the spec gives a change intent a direction in {Add, Remove}, and the
code at hand only ever names `RMC_ADD` and `RMC_REMOVE`. -/
inductive LLRoleMemberChangeType where
  | RMC_ADD
  | RMC_REMOVE
  deriving DecidableEq, Repr

open LLRoleMemberChangeType

/-- The other direction. -/
def LLRoleMemberChangeType.opposite : LLRoleMemberChangeType → LLRoleMemberChangeType
  | RMC_ADD => RMC_REMOVE
  | RMC_REMOVE => RMC_ADD

/-! ## `std::map` as a key-ordered association list -/

/-- `std::map::find`: the value stored under `k`, if any. -/
def mapFind {β : Type} : List (LLUUID × β) → LLUUID → Option β
  | [], _ => none
  | (k', v) :: rest, k => if k' = k then some v else mapFind rest k

/-- `m[k] = v`: store `v` under `k`, keeping the keys in ascending order. -/
def mapInsert {β : Type} : List (LLUUID × β) → LLUUID → β → List (LLUUID × β)
  | [], k, v => [(k, v)]
  | (k', v') :: rest, k, v =>
    if k < k' then (k, v) :: (k', v') :: rest
    else if k = k' then (k, v) :: rest
    else (k', v') :: mapInsert rest k v

/-- `std::map::erase(k)`. -/
def mapErase {β : Type} (m : List (LLUUID × β)) (k : LLUUID) : List (LLUUID × β) :=
  m.filter (fun e => e.1 != k)

/-- The representation invariant of a `std::map`: keys strictly ascending. -/
def MapSorted {β : Type} (m : List (LLUUID × β)) : Prop :=
  (m.map Prod.fst).Pairwise (· < ·)

/-! ## Group data held by the group manager -/

/-- The part of `LLRoleData` that the code reads. -/
structure LLRoleData where
  mRoleName : String
  mRolePowers : U64
  deriving DecidableEq, Repr

/-- A role of the group as the manager stores it: `getID()`, `getRoleData()` and the ids of
the members of the role. -/
structure LLGroupRoleData where
  mRoleID : LLUUID
  mRoleData : LLRoleData
  mMemberIDs : List LLUUID
  deriving DecidableEq, Repr

/-- A member of the group: the committed role list (`roleBegin()` .. `roleEnd()`), a
`std::map` from role id to the role. -/
structure LLGroupMemberData where
  mRolesList : List (LLUUID × LLGroupRoleData)
  deriving DecidableEq, Repr

/-- Modelled from the spec: `LLGroupMemberData::getAgentPowers` is defined outside the
sources at hand. The spec gives the mask of a member without pending intents as the bitwise
OR of the power bitmasks of all the roles the member is committed to. -/
def LLGroupMemberData.getAgentPowers (member_data : LLGroupMemberData) : U64 :=
  member_data.mRolesList.foldl (fun acc r => acc ||| r.2.mRoleData.mRolePowers) GP_NO_POWERS

/-- The group data of `LLGroupMgr`. The lookups `getRoleData` and `getRolePowers` are defined
outside the sources at hand and are taken as they come: `getRoleData` yields `none` where the
C++ function returns `false`. -/
structure LLGroupMgrGroupData where
  mOwnerRole : LLUUID
  mMembers : List (LLUUID × Option LLGroupMemberData)
  mRoles : List (LLUUID × Option LLGroupRoleData)
  getRoleData : LLUUID → Option LLRoleData
  getRolePowers : LLUUID → U64

/-! ## The owner-addition counter -/

/-- The integer type of `mNumOwnerAdditions`. Its declaration is in a header that is not
among the sources, so both 32-bit types of the code base are covered. -/
inductive CounterTy where
  | U32
  | S32
  deriving DecidableEq, Repr

/-- Reduction of an integer to the range of the counter type (two's complement for `S32`). -/
def CounterTy.wrap : CounterTy → Int → Int
  | .U32, x => x % 2 ^ 32
  | .S32, x => (x + 2 ^ 31) % 2 ^ 32 - 2 ^ 31

/-- `mNumOwnerAdditions++`. -/
def CounterTy.incr (ty : CounterTy) (n : Int) : Int := ty.wrap (n + 1)

/-- `mNumOwnerAdditions--`. -/
def CounterTy.decr (ty : CounterTy) (n : Int) : Int := ty.wrap (n - 1)

/-! ## The sub-tab -/

/-- `role_change_data_map_t`: role id to change type. -/
abbrev role_change_data_map_t := List (LLUUID × LLRoleMemberChangeType)

/-- `member_role_changes_map_t`: member id to that member's role changes. -/
abbrev member_role_changes_map_t := List (LLUUID × role_change_data_map_t)

/-- The fields of `LLPanelGroupMembersSubTab` that the change tracker uses. -/
structure LLPanelGroupMembersSubTab where
  mMemberRoleChangeData : member_role_changes_map_t
  mNumOwnerAdditions : Int
  mChanged : Bool
  mHasModal : Bool
  deriving DecidableEq, Repr

/-- The constructor: `mChanged(FALSE)`, `mNumOwnerAdditions(0)`, an empty change map. -/
def LLPanelGroupMembersSubTab.new : LLPanelGroupMembersSubTab :=
  { mMemberRoleChangeData := [], mNumOwnerAdditions := 0, mChanged := false, mHasModal := false }

/-- What a member function does to the outside: calls on the group data and the group
manager, and notifications raised. -/
inductive Effect where
  | changeRoleMember (role_id member_id : LLUUID) (type : LLRoleMemberChangeType)
  | sendGroupRoleMemberChanges
  | notification (name : String)
  deriving DecidableEq, Repr

/-- `LLPanelGroupMembersSubTab::getAgentPowersBasedOnRoleChanges`. The function writes no
field and makes no call that changes the group data, so it is a function of the group data
and the pending changes. -/
def getAgentPowersBasedOnRoleChanges (gdatap : Option LLGroupMgrGroupData)
    (self : LLPanelGroupMembersSubTab) (agent_id : LLUUID) : U64 :=
  match gdatap with
  | none => GP_NO_POWERS
  | some gd =>
    match mapFind gd.mMembers agent_id with
    | none => GP_NO_POWERS
    | some none => GP_NO_POWERS
    | some (some member_data) =>
      match mapFind self.mMemberRoleChangeData agent_id with
      | some role_change_datap =>
        -- first loop: add the powers of added roles, store the removed role ids away
        let acc := role_change_datap.foldl
          (fun (acc : U64 × List LLUUID) role =>
            if role.2 = RMC_ADD then (acc.1 ||| gd.getRolePowers role.1, acc.2)
            else (acc.1, acc.2 ++ [role.1]))
          (GP_NO_POWERS, [])
        -- second loop: the member's current roles, except the removed ones
        member_data.mRolesList.foldl
          (fun new_powers current_role =>
            if acc.2.contains current_role.2.mRoleID then new_powers
            else new_powers ||| current_role.2.mRoleData.mRolePowers)
          acc.1
      | none => member_data.getAgentPowers

/-- `LLPanelGroupMembersSubTab::getRoleChangeType`: `none` where the C++ function returns
`false`. -/
def getRoleChangeType (self : LLPanelGroupMembersSubTab) (member_id role_id : LLUUID) :
    Option LLRoleMemberChangeType :=
  match mapFind self.mMemberRoleChangeData member_id with
  | some role_changes => mapFind role_changes role_id
  | none => none

/-- The body of the loop of `handleRoleCheck` for one selected member, on the fields. -/
def handleRoleCheckMember (ty : CounterTy) (is_owner_role : Bool) (role_id : LLUUID)
    (type : LLRoleMemberChangeType) (self : LLPanelGroupMembersSubTab) (member_id : LLUUID) :
    LLPanelGroupMembersSubTab :=
  -- see if we requested a change for this member before
  let data :=
    match mapFind self.mMemberRoleChangeData member_id with
    | none => mapInsert self.mMemberRoleChangeData member_id []
    | some _ => self.mMemberRoleChangeData
  let role_change_datap := (mapFind data member_id).getD []
  match mapFind role_change_datap role_id with
  | some previous =>
    -- see if the new change type cancels out the previous change
    let erased := if previous ≠ type then mapErase role_change_datap role_id else role_change_datap
    let n :=
      if previous ≠ type then
        (if is_owner_role then ty.decr self.mNumOwnerAdditions else self.mNumOwnerAdditions)
      else self.mNumOwnerAdditions
    if erased.isEmpty then
      { self with mMemberRoleChangeData := mapErase data member_id, mNumOwnerAdditions := n }
    else if previous ≠ type then
      { self with mMemberRoleChangeData := mapInsert data member_id erased,
                  mNumOwnerAdditions := n }
    else
      { self with mMemberRoleChangeData := data, mNumOwnerAdditions := n }
  | none =>
    -- a previously unchanged role is being changed
    { self with
      mMemberRoleChangeData := mapInsert data member_id (mapInsert role_change_datap role_id type)
      mNumOwnerAdditions :=
        if is_owner_role && type == RMC_ADD then ty.incr self.mNumOwnerAdditions
        else self.mNumOwnerAdditions }

/-- The initial value of `powers_all_have` and `allowed_by_all`: `0xffffffffffffLL`. -/
def POWERS_ALL_INIT : U64 := 0xffffffffffff

/-- The state of the loop of `handleRoleCheck`: the fields and the two masks. -/
structure RoleCheckLoop where
  self : LLPanelGroupMembersSubTab
  powers_all_have : U64
  powers_some_have : U64
  deriving DecidableEq, Repr

/-- One iteration of the loop of `handleRoleCheck`. -/
def handleRoleCheckIter (ty : CounterTy) (gd : LLGroupMgrGroupData) (role_id : LLUUID)
    (type : LLRoleMemberChangeType) (st : RoleCheckLoop) (member_id : LLUUID) : RoleCheckLoop :=
  let self := handleRoleCheckMember ty (decide (gd.mOwnerRole = role_id)) role_id type
    st.self member_id
  let new_powers := getAgentPowersBasedOnRoleChanges (some gd) self member_id
  { self := self
    powers_all_have := st.powers_all_have &&& new_powers
    powers_some_have := st.powers_some_have ||| new_powers }

/-- `LLPanelGroupMembersSubTab::handleRoleCheck` with the two masks it hands to
`buildActionsList`. -/
def handleRoleCheckFull (ty : CounterTy) (gdatap : Option LLGroupMgrGroupData)
    (selection : List LLUUID) (role_id : LLUUID) (type : LLRoleMemberChangeType)
    (self : LLPanelGroupMembersSubTab) : RoleCheckLoop :=
  match gdatap with
  | none => { self := self, powers_all_have := POWERS_ALL_INIT, powers_some_have := 0 }
  | some gd =>
    if selection.isEmpty then
      { self := self, powers_all_have := POWERS_ALL_INIT, powers_some_have := 0 }
    else
      let st := selection.foldl (handleRoleCheckIter ty gd role_id type)
        { self := self, powers_all_have := POWERS_ALL_INIT, powers_some_have := 0 }
      { st with self := { st.self with mChanged := !st.self.mMemberRoleChangeData.isEmpty } }

/-- `LLPanelGroupMembersSubTab::handleRoleCheck`, on the fields. -/
def handleRoleCheck (ty : CounterTy) (gdatap : Option LLGroupMgrGroupData)
    (selection : List LLUUID) (role_id : LLUUID) (type : LLRoleMemberChangeType)
    (self : LLPanelGroupMembersSubTab) : LLPanelGroupMembersSubTab :=
  (handleRoleCheckFull ty gdatap selection role_id type self).self

/-- `LLPanelGroupMembersSubTab::needsApply`. -/
def needsApply (self : LLPanelGroupMembersSubTab) : Bool := self.mChanged

/-- `LLPanelGroupMembersSubTab::cancel`. -/
def cancel (self : LLPanelGroupMembersSubTab) : LLPanelGroupMembersSubTab :=
  if self.mChanged then
    { self with mMemberRoleChangeData := [], mChanged := false }
  else self

/-- The calls of the nested loops of `applyMemberChanges`: one `changeRoleMember` for each
role change of each member, in iteration order. -/
def changeRoleMemberCalls (data : member_role_changes_map_t) : List Effect :=
  data.foldl
    (fun calls member =>
      member.2.foldl (fun calls role => calls ++ [Effect.changeRoleMember role.1 member.1 role.2])
        calls)
    []

/-- `LLPanelGroupMembersSubTab::applyMemberChanges`: the new fields and the calls made.
`handleMemberSelect()` rebuilds widgets only and is left out. -/
def applyMemberChanges (gdatap : Option LLGroupMgrGroupData)
    (self : LLPanelGroupMembersSubTab) : LLPanelGroupMembersSubTab × List Effect :=
  match gdatap with
  | none => (self, [])
  | some _ =>
    ({ self with mMemberRoleChangeData := [], mChanged := false, mNumOwnerAdditions := 0 },
     changeRoleMemberCalls self.mMemberRoleChangeData ++ [Effect.sendGroupRoleMemberChanges])

/-- The outcome of `apply`: the returned flag, the new fields, the calls made and `mesg`. -/
structure ApplyResult where
  ok : Bool
  self : LLPanelGroupMembersSubTab
  effects : List Effect
  mesg : String
  deriving DecidableEq, Repr

/-- `LLPanelGroupMembersSubTab::apply`. -/
def apply (gdatap : Option LLGroupMgrGroupData) (self : LLPanelGroupMembersSubTab) :
    ApplyResult :=
  match gdatap with
  | none =>
    { ok := false, self := self, effects := [],
      mesg := "Unable to save member data.  Try again later." }
  | some gd =>
    if self.mChanged then
      if self.mNumOwnerAdditions > 0 then
        match gd.getRoleData gd.mOwnerRole with
        | some _ =>
          { ok := true, self := { self with mHasModal := true },
            effects := [Effect.notification "AddGroupOwnerWarning"], mesg := "" }
        | none =>
          { ok := false, self := self, effects := [],
            mesg := "Unable to retried specific group information.  Try again later" }
      else
        let r := applyMemberChanges gdatap self
        { ok := true, self := r.1, effects := r.2, mesg := "" }
    else
      { ok := true, self := self, effects := [], mesg := "" }

/-- `LLPanelGroupMembersSubTab::addOwnerCB`; `option` is the selected option of the
notification response. -/
def addOwnerCB (gdatap : Option LLGroupMgrGroupData) (option : Int)
    (self : LLPanelGroupMembersSubTab) : LLPanelGroupMembersSubTab × List Effect :=
  let self := { self with mHasModal := false }
  if option = 0 then applyMemberChanges gdatap self
  else (self, [])

/-! ## Vocabulary of the properties -/

/-- The (member, role, direction) entries of the pending set, in iteration order. -/
def entries (data : member_role_changes_map_t) : List (LLUUID × LLUUID × LLRoleMemberChangeType) :=
  data.flatMap (fun member => member.2.map (fun role => (member.1, role.1, role.2)))

/-- The number of pending `RMC_ADD` entries for the role `owner_role`. -/
def numOwnerAddEntries (owner_role : LLUUID) (data : member_role_changes_map_t) : Nat :=
  ((entries data).filter (fun e => e.2.1 = owner_role ∧ e.2.2 = RMC_ADD)).length

/-- The pending set is a well-formed `std::map` of `std::map`s: the member ids and, for each
member, the role ids are strictly ascending. -/
def PendingWF (data : member_role_changes_map_t) : Prop :=
  MapSorted data ∧ ∀ e ∈ data, MapSorted e.2

/-- What recording direction `t` does to the intent found for a (member, role) pair: a new
intent is stored, the same direction is kept, the opposite direction cancels. -/
def toggleIntent (found : Option LLRoleMemberChangeType) (t : LLRoleMemberChangeType) :
    Option LLRoleMemberChangeType :=
  match found with
  | none => some t
  | some previous => if previous = t then some previous else none

/-- What recording direction `t` for role `r` does to one member's role changes. -/
def toggleRole (rc : role_change_data_map_t) (r : LLUUID) (t : LLRoleMemberChangeType) :
    role_change_data_map_t :=
  match mapFind rc r with
  | some previous => if previous = t then rc else mapErase rc r
  | none => mapInsert rc r t

/-- A member's entry in the pending set, given the member's role changes: no entry when
there are none. -/
def nonEmptyOpt (rc : role_change_data_map_t) : Option role_change_data_map_t :=
  if rc.isEmpty then none else some rc

/-- One intent recording: a click on the checkbox of `role` with only `member` selected. -/
structure Recording where
  member : LLUUID
  role : LLUUID
  type : LLRoleMemberChangeType
  deriving DecidableEq, Repr

/-- `handleRoleCheck(role, type)` with the single member of the recording selected. -/
def recordIntent (ty : CounterTy) (gdatap : Option LLGroupMgrGroupData)
    (self : LLPanelGroupMembersSubTab) (rec : Recording) : LLPanelGroupMembersSubTab :=
  handleRoleCheck ty gdatap [rec.member] rec.role rec.type self

/-- A list of recordings made one after the other. -/
def recordAll (ty : CounterTy) (gdatap : Option LLGroupMgrGroupData) (l : List Recording)
    (self : LLPanelGroupMembersSubTab) : LLPanelGroupMembersSubTab :=
  l.foldl (recordIntent ty gdatap) self

/-- Bitwise OR of a list of power masks. -/
def orAll (l : List U64) : U64 := l.foldr (· ||| ·) GP_NO_POWERS

/-- The call `changeRoleMember(role, member, direction)` that commits a pending entry. -/
def commitCall (e : LLUUID × LLUUID × LLRoleMemberChangeType) : Effect :=
  Effect.changeRoleMember e.2.1 e.1 e.2.2

/-- Whether an effect is a `changeRoleMember` call. -/
def Effect.isChangeRoleMember : Effect → Bool
  | .changeRoleMember _ _ _ => true
  | _ => false

/-- A group whose Owner role has id `9` and whose role data is available; used to replay
concrete click sequences. -/
def sampleGroup : LLGroupMgrGroupData :=
  { mOwnerRole := 9, mMembers := [], mRoles := [],
    getRoleData := fun _ => some { mRoleName := "Owners", mRolePowers := 7 },
    getRolePowers := fun _ => 0 }

/-- Role A of the scenario: power bit `0x1`. -/
def scenarioRoleA : LLGroupRoleData :=
  { mRoleID := 10, mRoleData := { mRoleName := "A", mRolePowers := 0x1 }, mMemberIDs := [1] }

/-- Role B of the scenario: power bit `0x2`. -/
def scenarioRoleB : LLGroupRoleData :=
  { mRoleID := 20, mRoleData := { mRoleName := "B", mRolePowers := 0x2 }, mMemberIDs := [1] }

/-- Member M of the scenario, committed to exactly the roles A and B. -/
def scenarioMember : LLGroupMemberData :=
  { mRolesList := [(10, scenarioRoleA), (20, scenarioRoleB)] }

/-- The group of the scenario: member `1` holds the roles `10` (A) and `20` (B); the Owner
role is `9`; `getRolePowers` reads the role list. -/
def scenarioGroup : LLGroupMgrGroupData :=
  { mOwnerRole := 9
    mMembers := [(1, some scenarioMember)]
    mRoles := [(10, some scenarioRoleA), (20, some scenarioRoleB)]
    getRoleData := fun id =>
      if id = 10 then some scenarioRoleA.mRoleData
      else if id = 20 then some scenarioRoleB.mRoleData else none
    getRolePowers := fun id => if id = 10 then 0x1 else if id = 20 then 0x2 else GP_NO_POWERS }

/-! ## Reachable states, committed membership, the masks of `handleMemberSelect` -/

/-- The states of the sub-tab fields that a run of the member functions can produce, from
the constructor on, for any group data and any selection at each call. -/
inductive Reachable (ty : CounterTy) : LLPanelGroupMembersSubTab → Prop where
  | new : Reachable ty LLPanelGroupMembersSubTab.new
  | handleRoleCheck (gdatap : Option LLGroupMgrGroupData) (selection : List LLUUID)
      (role_id : LLUUID) (type : LLRoleMemberChangeType) (s : LLPanelGroupMembersSubTab) :
      Reachable ty s → Reachable ty (handleRoleCheck ty gdatap selection role_id type s)
  | cancel (s : LLPanelGroupMembersSubTab) : Reachable ty s → Reachable ty (cancel s)
  | applyMemberChanges (gdatap : Option LLGroupMgrGroupData) (s : LLPanelGroupMembersSubTab) :
      Reachable ty s → Reachable ty (applyMemberChanges gdatap s).1
  | apply (gdatap : Option LLGroupMgrGroupData) (s : LLPanelGroupMembersSubTab) :
      Reachable ty s → Reachable ty (apply gdatap s).self
  | addOwnerCB (gdatap : Option LLGroupMgrGroupData) (option : Int)
      (s : LLPanelGroupMembersSubTab) :
      Reachable ty s → Reachable ty (addOwnerCB gdatap option s).1

/-- Modelled from the spec: `LLGroupMemberData::isInRole` is defined outside the sources at
hand; a member holds a role when the role is in the member's committed role memberships. -/
def LLGroupMemberData.isInRole (member_data : LLGroupMemberData) (role_id : LLUUID) : Bool :=
  (mapFind member_data.mRolesList role_id).isSome

/-- Whether member `member_id` holds role `role_id` in the committed group data. -/
def holdsRole (gd : LLGroupMgrGroupData) (member_id role_id : LLUUID) : Bool :=
  match mapFind gd.mMembers member_id with
  | some (some member_data) => member_data.isInRole role_id
  | _ => false

/-- The pending set is a well-formed map of maps without an empty role-change map. -/
def DataInv (data : member_role_changes_map_t) : Prop :=
  PendingWF data ∧ ∀ e ∈ data, e.2 ≠ []

/-- The invariant of the tracker fields: a well-formed pending set without empty role-change
maps, and `mChanged` set exactly when the pending set is not empty. -/
def TrackerInv (s : LLPanelGroupMembersSubTab) : Prop :=
  DataInv s.mMemberRoleChangeData ∧ s.mChanged = !s.mMemberRoleChangeData.isEmpty

/-- The first loop of `LLPanelGroupMembersSubTab::handleMemberSelect`: the pair
(`allowed_by_all`, `allowed_by_some`) handed to `buildActionsList`; `none` where the function
returns before the loop (no group data, nothing selected). -/
def handleMemberSelectPowers (gdatap : Option LLGroupMgrGroupData) (selection : List LLUUID)
    (self : LLPanelGroupMembersSubTab) : Option (U64 × U64) :=
  match gdatap with
  | none => none
  | some gd =>
    if selection.isEmpty then none
    else
      some (selection.foldl
        (fun (acc : U64 × U64) member_id =>
          let powers := getAgentPowersBasedOnRoleChanges (some gd) self member_id
          (acc.1 &&& powers, acc.2 ||| powers))
        (POWERS_ALL_INIT, 0))

/-- Bitwise AND of the masks of a non-empty list (the empty list gives the empty mask). -/
def andAll : List U64 → U64
  | [] => GP_NO_POWERS
  | [p] => p
  | p :: q :: rest => p &&& andAll (q :: rest)

/-- A role whose mask has bit 51 set. -/
def highBitRole : LLGroupRoleData :=
  { mRoleID := 10, mRoleData := { mRoleName := "Moderators", mRolePowers := 0x8000000000000 },
    mMemberIDs := [1] }

/-- A group whose member `1` holds `highBitRole`; the Owner role is `9`. -/
def highBitGroup : LLGroupMgrGroupData :=
  { mOwnerRole := 9
    mMembers := [(1, some { mRolesList := [(10, highBitRole)] })]
    mRoles := [(10, some highBitRole)]
    getRoleData := fun id => if id = 10 then some highBitRole.mRoleData else none
    getRolePowers := fun id => if id = 10 then 0x8000000000000 else GP_NO_POWERS }

/-- A group in which member `1` holds role `10` (role A of the scenario) and member `2`
holds no role; the Owner role is `9`. -/
def mixedGroup : LLGroupMgrGroupData :=
  { mOwnerRole := 9
    mMembers := [(1, some { mRolesList := [(10, scenarioRoleA)] }), (2, some { mRolesList := [] })]
    mRoles := [(10, some scenarioRoleA)]
    getRoleData := fun id => if id = 10 then some scenarioRoleA.mRoleData else none
    getRolePowers := fun id => if id = 10 then 0x1 else GP_NO_POWERS }

/-! ## The search filter of `LLPanelGroupSubTab` -/

/-- A `std::string`, as the list of its characters. -/
abbrev StdString := List Char

/-- Modelled from the spec: `LLStringUtil::toLower` is defined outside the sources at hand;
the spec speaks of lower-casing, taken character by character on the basic latin letters. -/
def toLower (s : StdString) : StdString := s.map Char.toLower

/-- Whether `s` begins with `needle`. -/
def startsWith : StdString → StdString → Bool
  | _, [] => true
  | [], _ :: _ => false
  | c :: cs, n :: ns => c == n && startsWith cs ns

/-- `std::string::find(needle)`: the first position at which `needle` occurs in `s`; `none`
is `std::string::npos`. -/
def stringFind : StdString → StdString → Option Nat
  | [], needle => if needle.isEmpty then some 0 else none
  | c :: cs, needle =>
    if startsWith (c :: cs) needle then some 0
    else (stringFind cs needle).map (· + 1)

/-- The field of `LLPanelGroupSubTab` that the matchers read. -/
structure LLPanelGroupSubTab where
  mSearchFilter : StdString
  deriving DecidableEq, Repr

/-- The constructor leaves `mSearchFilter` default-constructed: the empty string. -/
def LLPanelGroupSubTab.new : LLPanelGroupSubTab := { mSearchFilter := [] }

/-- `LLPanelGroupSubTab::setSearchFilter`; `update(GC_ALL)` redraws only. -/
def setSearchFilter (filter : StdString) (self : LLPanelGroupSubTab) : LLPanelGroupSubTab :=
  if self.mSearchFilter = filter then self
  else { self with mSearchFilter := toLower filter }

/-- `LLPanelGroupSubTab::matchesActionSearchFilter`. -/
def matchesActionSearchFilter (self : LLPanelGroupSubTab) (action : StdString) : Bool :=
  if self.mSearchFilter.isEmpty then true
  else
    match stringFind (toLower action) self.mSearchFilter with
    | none => false
    | some _ => true

/-- `LLPanelGroupMembersSubTab::matchesSearchFilter`, on the inherited filter field. -/
def LLPanelGroupMembersSubTab.matchesSearchFilter (self : LLPanelGroupSubTab)
    (fullname : StdString) : Bool :=
  if self.mSearchFilter.isEmpty then true
  else
    match stringFind (toLower fullname) self.mSearchFilter with
    | none => false
    | some _ => true

/-- `LLPanelGroupRolesSubTab::matchesSearchFilter`, on the inherited filter field. -/
def LLPanelGroupRolesSubTab.matchesSearchFilter (self : LLPanelGroupSubTab)
    (rolename roletitle : StdString) : Bool :=
  if self.mSearchFilter.isEmpty then true
  else
    let match_name := stringFind (toLower rolename) self.mSearchFilter
    let match_title := stringFind (toLower roletitle) self.mSearchFilter
    if match_name = none ∧ match_title = none then false else true

/-- The string `needle` occurs in `s` as a contiguous substring. -/
def Occurs (needle s : StdString) : Prop := ∃ before after, s = before ++ needle ++ after

/-! ## The group chat listener (`groupchatlistener.cpp`)

Elapsed-time readings (`F64`) are the values of a type `α` that is linearly ordered and has
`0`, `1` and `+`; no law of arithmetic is assumed of them. -/

/-- The fields of the `LLSD` request that the listener reads. -/
structure ChatRequest where
  group_id : LLUUID
  message : String
  deriving DecidableEq, Repr

/-- The collaborators of the listener: `LLGroupActions::isInGroup`, the session id that
`LLGroupActions::startIM` returns (`0` is the null id), the session id that
`gIMMgr->computeSessionID(IM_SESSION_GROUP_START, group_id)` returns, and the string
constant `LUA_PREFIX`, which is defined outside the sources at hand and is taken as it
comes. -/
structure ChatEnv where
  isInGroup : LLUUID → Bool
  startIM : LLUUID → LLUUID
  computeSessionID : LLUUID → LLUUID
  LUA_PREFIX : String

/-- What an operation of the listener does to the outside. -/
inductive ChatEffect where
  | errorNotMember (group_id : LLUUID)
  | errorStartFailed (group_id : LLUUID)
  | startIM (group_id : LLUUID)
  | endIM (group_id : LLUUID)
  | sendMessage (utf8_text : String) (im_session_id : LLUUID) (other_participant_id : LLUUID)
  deriving DecidableEq, Repr

/-- Whether an effect is a `response.error`. -/
def ChatEffect.isError : ChatEffect → Bool
  | .errorNotMember _ => true
  | .errorStartFailed _ => true
  | _ => false

/-- Whether an effect is one of the downstream calls `startIM`, `endIM`, `sendMessage`. -/
def ChatEffect.isDownstream : ChatEffect → Bool
  | .startIM _ => true
  | .endIM _ => true
  | .sendMessage _ _ _ => true
  | _ => false

/-- The field of `LLGroupChatListener`. -/
structure LLGroupChatListener (α : Type) where
  mLastThrottleTime : α
  deriving DecidableEq, Repr

/-- The constructor: `mLastThrottleTime(0)`. -/
def LLGroupChatListener.new {α : Type} [Zero α] : LLGroupChatListener α :=
  { mLastThrottleTime := 0 }

/-- `GROUP_CHAT_THROTTLE_PERIOD = 1.f`. -/
def GROUP_CHAT_THROTTLE_PERIOD {α : Type} [One α] : α := 1

/-- `is_in_group`: the returned flag and the error put on the response. -/
def is_in_group (env : ChatEnv) (data : ChatRequest) : Bool × List ChatEffect :=
  if !env.isInGroup data.group_id then (false, [ChatEffect.errorNotMember data.group_id])
  else (true, [])

/-- `LLGroupChatListener::startGroupChat`. -/
def startGroupChat {α : Type} (env : ChatEnv) (data : ChatRequest)
    (self : LLGroupChatListener α) : LLGroupChatListener α × List ChatEffect :=
  let r := is_in_group env data
  if !r.1 then (self, r.2)
  else if env.startIM data.group_id = 0 then
    (self, r.2 ++ [ChatEffect.startIM data.group_id, ChatEffect.errorStartFailed data.group_id])
  else (self, r.2 ++ [ChatEffect.startIM data.group_id])

/-- `LLGroupChatListener::leaveGroupChat`. -/
def leaveGroupChat {α : Type} (env : ChatEnv) (data : ChatRequest)
    (self : LLGroupChatListener α) : LLGroupChatListener α × List ChatEffect :=
  let r := is_in_group env data
  if r.1 then (self, r.2 ++ [ChatEffect.endIM data.group_id])
  else (self, r.2)

/-- `LLGroupChatListener::sendGroupIM`; `cur_time` is the reading of
`LLTimer::getElapsedSeconds()`. The message handed to `LLIMModel::sendMessage` is
`LUA_PREFIX + data["message"]`, with the session id computed from the group id and the group
id as the other participant; the dialog argument is the constant `IM_SESSION_GROUP_START`. -/
def sendGroupIM {α : Type} [LinearOrder α] [One α] [Add α] (env : ChatEnv) (cur_time : α)
    (data : ChatRequest) (self : LLGroupChatListener α) :
    LLGroupChatListener α × List ChatEffect :=
  let r := is_in_group env data
  if !r.1 then (self, r.2)
  else if cur_time < self.mLastThrottleTime + GROUP_CHAT_THROTTLE_PERIOD then (self, r.2)
  else
    ({ self with mLastThrottleTime := cur_time },
     r.2 ++ [ChatEffect.sendMessage (env.LUA_PREFIX ++ data.message)
       (env.computeSessionID data.group_id) data.group_id])

/-- Whether a `sendGroupIM` call handed a message to `LLIMModel::sendMessage`. -/
def delivered {α : Type} (r : LLGroupChatListener α × List ChatEffect) : Bool :=
  r.2.any (fun e => match e with
    | .sendMessage _ _ _ => true
    | _ => false)

/-- A run of `sendGroupIM` calls, each with its time reading and request. -/
def sendAll {α : Type} [LinearOrder α] [One α] [Add α] (env : ChatEnv)
    (calls : List (α × ChatRequest)) (self : LLGroupChatListener α) : LLGroupChatListener α :=
  calls.foldl (fun s c => (sendGroupIM env c.1 c.2 s).1) self

/-- The time of the most recent call of a run that delivered its message; `none` when no
call of the run delivered. -/
def lastDelivered {α : Type} [LinearOrder α] [One α] [Add α] (env : ChatEnv) :
    List (α × ChatRequest) → LLGroupChatListener α → Option α
  | [], _ => none
  | c :: rest, self =>
    match lastDelivered env rest (sendGroupIM env c.1 c.2 self).1 with
    | some L => some L
    | none => if delivered (sendGroupIM env c.1 c.2 self) then some c.1 else none

/-- An environment in which the agent is a member of group `7` only and sessions start. -/
def sampleChatEnv : ChatEnv :=
  { isInGroup := fun g => g == 7, startIM := fun g => g + 1,
    computeSessionID := fun g => g + 100, LUA_PREFIX := "[LUA] " }

/-! ## The acting agent and the permission helpers -/

/-- The power bits of `roles_constants.h` that the code compares with or asks the agent
for. The header is not among the sources, so their values are parameters. -/
structure RolesConstants where
  GP_ROLE_ASSIGN_MEMBER : U64
  GP_ROLE_ASSIGN_MEMBER_LIMITED : U64
  GP_ROLE_REMOVE_MEMBER : U64
  GP_ROLE_CHANGE_ACTIONS : U64
  GP_ROLE_DELETE : U64

/-- What the code reads of `gAgent`; `hasPowerInGroup` is asked for the group of the
panel. -/
structure LLAgent where
  getID : LLUUID
  isGodlike : Bool
  hasPowerInGroup : U64 → Bool

/-- `agentCanRemoveFromRole`. -/
def agentCanRemoveFromRole (rc : RolesConstants) (agent : LLAgent) (_role_id : LLUUID) : Bool :=
  agent.hasPowerInGroup rc.GP_ROLE_REMOVE_MEMBER

/-- `agentCanAddToRole`; `none` where the code dereferences a null `member_data`. -/
def agentCanAddToRole (rc : RolesConstants) (agent : LLAgent)
    (gdatap : Option LLGroupMgrGroupData) (role_id : LLUUID) : Option Bool :=
  if agent.isGodlike then some true
  else
    match gdatap with
    | none => some false
    | some gd =>
      -- make sure the agent is in the group
      match mapFind gd.mMembers agent.getID with
      | none => some false
      | some none => none
      | some (some member_data) =>
        -- owners can add to any role
        if member_data.isInRole gd.mOwnerRole then some true
        -- 'limited assign members' can add to roles the user is in
        else if agent.hasPowerInGroup rc.GP_ROLE_ASSIGN_MEMBER_LIMITED
            && member_data.isInRole role_id then some true
        -- 'assign members' can add to non-owner roles
        else if agent.hasPowerInGroup rc.GP_ROLE_ASSIGN_MEMBER
            && role_id != gd.mOwnerRole then some true
        else some false

/-- Modelled from the spec: `LLGroupRoleData::getMembersInRole` is defined outside the
sources at hand; the claims describe its result as the number of committed members of the
role among the selection. -/
def LLGroupRoleData.getMembersInRole (role : LLGroupRoleData) (selected_members : List LLUUID) :
    Int :=
  ((selected_members.filter (fun m => role.mMemberIDs.contains m)).length : Int)

/-- The loop of `handleMemberSelect` that looks for a selected owner besides the agent:
`true` where the loop sets `cb_enable = FALSE` and breaks. -/
def otherOwnerSelected (agent : LLAgent) (gd : LLGroupMgrGroupData) : List LLUUID → Bool
  | [] => false
  | member :: rest =>
    -- don't count the agent
    if member = agent.getID then otherOwnerSelected agent gd rest
    else
      match mapFind gd.mMembers member with
      | none => otherOwnerSelected agent gd rest
      | some none => otherOwnerSelected agent gd rest
      | some (some member_data) =>
        if member_data.isInRole gd.mOwnerRole then true
        else otherOwnerSelected agent gd rest

/-- The value of `cb_enable` that `handleMemberSelect` computes for the row of one role;
`selected_members` is the vector of the selected member ids. -/
def handleMemberSelectCbEnable (rc : RolesConstants) (agent : LLAgent)
    (gd : LLGroupMgrGroupData) (selected_members : List LLUUID) (role_id : LLUUID)
    (group_role_data : LLGroupRoleData) : Option Bool :=
  let count := group_role_data.getMembersInRole selected_members
  let cb_enable :=
    if count > 0 then some (agentCanRemoveFromRole rc agent role_id)
    else agentCanAddToRole rc agent (some gd) role_id
  match cb_enable with
  | none => none
  | some cb =>
    -- Owner role has special enabling permissions for removal.
    if cb && decide (count > 0) && decide (role_id = gd.mOwnerRole) then
      if otherOwnerSelected agent gd selected_members then some false else some cb
    else some cb

/-- The count that `handleMemberSelect` shows for one role: the committed members of the
role among the selection, corrected by the pending changes of the selected members. -/
def handleMemberSelectCount (self : LLPanelGroupMembersSubTab) (selected_members : List LLUUID)
    (role_id : LLUUID) (group_role_data : LLGroupRoleData) : Int :=
  selected_members.foldl
    (fun count member =>
      match getRoleChangeType self member role_id with
      | some RMC_ADD => count + 1
      | some RMC_REMOVE => count - 1
      | none => count)
    (group_role_data.getMembersInRole selected_members)

/-- The argument of `check->set` in `handleMemberSelect`. -/
def handleMemberSelectChecked (self : LLPanelGroupMembersSubTab)
    (selected_members : List LLUUID) (role_id : LLUUID) (group_role_data : LLGroupRoleData) :
    Bool :=
  decide (handleMemberSelectCount self selected_members role_id group_role_data > 0)

/-- The argument of `check->setTentative` in `handleMemberSelect`. -/
def handleMemberSelectTentative (self : LLPanelGroupMembersSubTab)
    (selected_members : List LLUUID) (role_id : LLUUID) (group_role_data : LLGroupRoleData) :
    Bool :=
  decide (0 ≠ handleMemberSelectCount self selected_members role_id group_role_data)
    && decide ((selected_members.length : Int)
        ≠ handleMemberSelectCount self selected_members role_id group_role_data)

/-- Whether a selected member holds the role once the pending changes are applied. -/
def effectivelyHolds (gd : LLGroupMgrGroupData) (self : LLPanelGroupMembersSubTab)
    (member role_id : LLUUID) : Bool :=
  match getRoleChangeType self member role_id with
  | some RMC_ADD => true
  | some RMC_REMOVE => false
  | none => holdsRole gd member role_id

/-- The members sub-tab with the fields of its base classes that `setGroupID` writes. -/
structure MembersSubTabPanel where
  mGroupID : LLUUID
  mActivated : Bool
  hasSearchEditor : Bool
  base : LLPanelGroupSubTab
  tracker : LLPanelGroupMembersSubTab
  deriving DecidableEq, Repr

/-- `LLPanelGroupSubTab::setGroupID`: `LLPanelGroupTab::setGroupID`, which is defined outside
the sources at hand, is taken to store the id; the search filter is emptied when there is a
search editor, and `mActivated` is cleared. -/
def LLPanelGroupSubTab.setGroupID (id : LLUUID) (self : MembersSubTabPanel) :
    MembersSubTabPanel :=
  let self := { self with mGroupID := id }
  let self :=
    if self.hasSearchEditor then { self with base := setSearchFilter [] self.base } else self
  { self with mActivated := false }

/-- `LLPanelGroupMembersSubTab::setGroupID`: the three lists are emptied (widgets only) and
the base class function is called. -/
def LLPanelGroupMembersSubTab.setGroupID (id : LLUUID) (self : MembersSubTabPanel) :
    MembersSubTabPanel :=
  LLPanelGroupSubTab.setGroupID id self

/-! ## The roles sub-tab: deleting a role, checking an action -/

/-- The calls of the roles sub-tab on the group data, and the notifications it raises. -/
inductive RolesEffect where
  | deleteRole (role_id : LLUUID)
  | addRolePower (role_id : LLUUID) (power : U64)
  | removeRolePower (role_id : LLUUID) (power : U64)
  | notification (name : String)
  deriving DecidableEq, Repr

/-- Whether an effect is a `deleteRole` call. -/
def RolesEffect.isDeleteRole : RolesEffect → Bool
  | .deleteRole _ => true
  | _ => false

/-- Whether an effect is an `addRolePower` or a `removeRolePower` call. -/
def RolesEffect.isPowerChange : RolesEffect → Bool
  | .addRolePower _ _ => true
  | .removeRolePower _ _ => true
  | _ => false

/-- What the code reads and writes of `LLPanelGroupRolesSubTab`: the role ids of the rows of
`mRolesList` with the index of the first selected row, the power bit of the first selected
row of `mAllowedActionsList`, and two flags. -/
structure LLPanelGroupRolesSubTab where
  mRolesList : List LLUUID
  mRolesSelected : Option Nat
  mActionSelected : Option U64
  mHasModal : Bool
  mHasRoleChange : Bool
  deriving DecidableEq, Repr

/-- `mRolesList->getFirstSelected()->getUUID()`, `none` when nothing is selected. -/
def LLPanelGroupRolesSubTab.getFirstSelected (self : LLPanelGroupRolesSubTab) : Option LLUUID :=
  match self.mRolesSelected with
  | none => none
  | some i => self.mRolesList.get? i

/-- `LLPanelGroupRolesSubTab::handleDeleteRole`. -/
def handleDeleteRole (gdatap : Option LLGroupMgrGroupData) (self : LLPanelGroupRolesSubTab) :
    LLPanelGroupRolesSubTab × List RolesEffect :=
  match gdatap with
  | none => (self, [])
  | some gd =>
    match self.mRolesSelected, self.getFirstSelected with
    | some index, some role_id =>
      if role_id = 0 ∨ role_id = gd.mOwnerRole then
        (self, [RolesEffect.notification "GenericAlert"])
      else
        let rows := self.mRolesList.eraseIdx index
        ({ self with mRolesList := rows,
                     mRolesSelected := if rows.isEmpty then none else some 0 },
         [RolesEffect.deleteRole role_id])
    | _, _ => (self, [])

/-- The argument of `mDeleteRoleButton->setEnabled` in `handleRoleSelect`; `item` is the row
that `getFirstSelected` returns after `saveRoleChanges(false)`. `none` where the function
returns before it reaches the button. -/
def handleRoleSelectCanDelete (rc : RolesConstants) (agent : LLAgent)
    (gdatap : Option LLGroupMgrGroupData) (item : Option LLUUID) : Option Bool :=
  match gdatap with
  | none => none
  | some gd =>
    match item with
    | none => none
    | some role_id =>
      let can_delete :=
        match gd.getRoleData role_id with
        | some _ =>
          -- you can't delete the owner role; Everyone role, can't delete
          (if gd.mOwnerRole = role_id then false else true) && (if role_id = 0 then false else true)
        | none => false
      some (can_delete && agent.hasPowerInGroup rc.GP_ROLE_DELETE)

/-- `LLPanelGroupRolesSubTab::handleActionCheck`; `check` is the value of the checkbox, the
second component of the result its value afterwards. -/
def handleActionCheck (rc : RolesConstants) (gdatap : Option LLGroupMgrGroupData)
    (check : Bool) (force : Bool) (self : LLPanelGroupRolesSubTab) :
    LLPanelGroupRolesSubTab × Bool × List RolesEffect :=
  match gdatap with
  | none => (self, check, [])
  | some gd =>
    match self.mActionSelected, self.getFirstSelected with
    | some power, some role_id =>
      if check then
        if !force && (rc.GP_ROLE_ASSIGN_MEMBER == power || rc.GP_ROLE_CHANGE_ACTIONS == power) then
          -- uncheck the item, for now
          match gd.getRoleData role_id with
          | some _ =>
            ({ self with mHasModal := true, mHasRoleChange := true }, false,
             [RolesEffect.notification
               (if rc.GP_ROLE_CHANGE_ACTIONS == power then "AssignDangerousAbilityWarning"
                else "AssignDangerousActionWarning")])
          | none => ({ self with mHasRoleChange := true }, false, [])
        else
          ({ self with mHasRoleChange := true }, check, [RolesEffect.addRolePower role_id power])
      else
        ({ self with mHasRoleChange := true }, check, [RolesEffect.removeRolePower role_id power])
    | _, _ => (self, check, [])

/-- `LLPanelGroupRolesSubTab::addActionCB`, for a non-null `check`. -/
def addActionCB (rc : RolesConstants) (gdatap : Option LLGroupMgrGroupData) (option : Int)
    (check : Bool) (self : LLPanelGroupRolesSubTab) :
    LLPanelGroupRolesSubTab × Bool × List RolesEffect :=
  let self := { self with mHasModal := false }
  if option = 0 then handleActionCheck rc gdatap true true self
  else (self, check, [])

/-! ## The panel `LLPanelGroupRoles` and its tab switch -/

/-- A sub-tab panel of the tab container: the members sub-tab, whose fields are part of the
state, or another sub-tab, known by a number. -/
inductive TabId where
  | members
  | other (n : Nat)
  deriving DecidableEq, Repr

/-- What the panel reads from outside: the group data, the panel lookup of the tab
container, and `needsApply` and `apply` (result and message) of the other sub-tabs. -/
structure PanelEnv where
  gdatap : Option LLGroupMgrGroupData
  getPanelByName : String → Option TabId
  otherNeedsApply : Nat → Bool
  otherApply : Nat → Bool × String

/-- What the panel does to the outside. -/
inductive PanelEffect where
  | notification (name : String)
  | deactivate (tab : TabId)
  | activate (tab : TabId)
  | selectTabPanel (tab : Option TabId)
  | members (e : Effect)
  | otherApply (n : Nat)
  | otherCancel (n : Nat)
  deriving DecidableEq, Repr

/-- Whether an effect is a `deactivate` or an `activate` of a sub-tab. -/
def PanelEffect.isTransition : PanelEffect → Bool
  | .deactivate _ => true
  | .activate _ => true
  | _ => false

/-- The fields of `LLPanelGroupRoles`, the current panel of `mSubTabContainer`, and the
fields of the members sub-tab. -/
structure LLPanelGroupRoles where
  mCurrentTab : Option TabId
  mRequestedTab : Option TabId
  mHasModal : Bool
  currentPanel : Option TabId
  membersTab : LLPanelGroupMembersSubTab
  deriving DecidableEq, Repr

/-- The virtual call `tab->needsApply(mesg)`. -/
def tabNeedsApply (env : PanelEnv) (self : LLPanelGroupRoles) : TabId → Bool
  | .members => needsApply self.membersTab
  | .other n => env.otherNeedsApply n

/-- `LLPanelGroupRoles::transitionToTab`. The `activate` and `deactivate` of a sub-tab show
and hide widgets and refresh lists; they write none of the fields modelled here. -/
def transitionToTab (self : LLPanelGroupRoles) : LLPanelGroupRoles × List PanelEffect :=
  let off :=
    match self.mCurrentTab with
    | some cur => [PanelEffect.deactivate cur]
    | none => []
  match self.mRequestedTab with
  | some req =>
    ({ self with mCurrentTab := some req, mRequestedTab := none },
     off ++ [PanelEffect.activate req])
  | none => (self, off)

/-- The outcome of a member function of the panel that returns a flag. -/
structure PanelResult where
  ok : Bool
  self : LLPanelGroupRoles
  effects : List PanelEffect
  mesg : String
  deriving DecidableEq, Repr

/-- `LLPanelGroupRoles::handleSubTabSwitch`. -/
def handleSubTabSwitch (env : PanelEnv) (panel_name : String) (self : LLPanelGroupRoles) :
    PanelResult :=
  if self.mRequestedTab ≠ none then
    -- we already have tab change request
    { ok := false, self := self, effects := [], mesg := "" }
  else
    let self := { self with mRequestedTab := env.getPanelByName panel_name }
    let needs :=
      match self.mCurrentTab with
      | some cur => tabNeedsApply env self cur
      | none => false
    if needs then
      { ok := false, self := { self with mHasModal := true },
        effects := [PanelEffect.notification "PanelGroupApply"], mesg := "" }
    else
      let r := transitionToTab self
      { ok := true, self := r.1, effects := r.2, mesg := "" }

/-- `LLPanelGroupRoles::apply`: passed along to the currently visible sub-tab. -/
def LLPanelGroupRoles.apply (env : PanelEnv) (self : LLPanelGroupRoles) : PanelResult :=
  match self.currentPanel with
  | none => { ok := false, self := self, effects := [], mesg := "" }
  | some panelp =>
    if !tabNeedsApply env self panelp then
      { ok := true, self := self, effects := [], mesg := "" }
    else
      match panelp with
      | .members =>
        let r := GroupRoles.apply env.gdatap self.membersTab
        { ok := r.ok, self := { self with membersTab := r.self },
          effects := r.effects.map PanelEffect.members, mesg := r.mesg }
      | .other n =>
        { ok := (env.otherApply n).1, self := self, effects := [PanelEffect.otherApply n],
          mesg := (env.otherApply n).2 }

/-- `LLPanelGroupRoles::cancel`: passed along to the currently visible sub-tab. -/
def LLPanelGroupRoles.cancel (self : LLPanelGroupRoles) : LLPanelGroupRoles × List PanelEffect :=
  match self.currentPanel with
  | none => (self, [])
  | some .members => ({ self with membersTab := GroupRoles.cancel self.membersTab }, [])
  | some (.other n) => (self, [PanelEffect.otherCancel n])

/-- `mSubTabContainer->selectTabPanel(tab)`: the container shows the tab, if there is
one. -/
def selectTabPanel (tab : Option TabId) (self : LLPanelGroupRoles) :
    LLPanelGroupRoles × List PanelEffect :=
  match tab with
  | some t => ({ self with currentPanel := some t }, [PanelEffect.selectTabPanel tab])
  | none => (self, [PanelEffect.selectTabPanel tab])

/-- `LLPanelGroupRoles::handleNotifyCallback`; `option` is the selected option of the
answer to the `PanelGroupApply` prompt. -/
def handleNotifyCallback (env : PanelEnv) (option : Int) (self : LLPanelGroupRoles) :
    LLPanelGroupRoles × List PanelEffect :=
  let self := { self with mHasModal := false }
  let transition_tab := self.mRequestedTab
  if option = 0 then
    -- "Apply Changes": try to apply changes, and switch to the requested tab
    let a := LLPanelGroupRoles.apply env self
    if !a.ok then
      -- there was a problem doing the apply: skip switching tabs
      if a.mesg ≠ "" then
        ({ a.self with mHasModal := true },
         a.effects ++ [PanelEffect.notification "GenericAlert"])
      else (a.self, a.effects)
    else
      let t := transitionToTab a.self
      let s := selectTabPanel transition_tab t.1
      (s.1, a.effects ++ t.2 ++ s.2)
  else if option = 1 then
    -- "Ignore Changes": switch to the requested panel without applying changes
    let c := LLPanelGroupRoles.cancel self
    let t := transitionToTab c.1
    let s := selectTabPanel transition_tab t.1
    (s.1, c.2 ++ t.2 ++ s.2)
  else
    -- "Cancel": do nothing, the user is canceling the action
    ({ self with mRequestedTab := none }, [])

/-- An environment with the sample group, in which the panel named "roles_sub_tab" is the
other sub-tab `1`, which has nothing to apply. -/
def samplePanelEnv : PanelEnv :=
  { gdatap := some sampleGroup
    getPanelByName := fun name => if name = "roles_sub_tab" then some (TabId.other 1) else none
    otherNeedsApply := fun _ => false
    otherApply := fun _ => (true, "") }

/-- The same environment after the group data has gone. -/
def noGroupPanelEnv : PanelEnv :=
  { samplePanelEnv with gdatap := none }

/-- A panel showing the members sub-tab with the given fields, no request outstanding. -/
def panelShowingMembers (membersTab : LLPanelGroupMembersSubTab) : LLPanelGroupRoles :=
  { mCurrentTab := some TabId.members, mRequestedTab := none, mHasModal := false,
    currentPanel := some TabId.members, membersTab := membersTab }

/-- A panel showing the members sub-tab with the given fields while the prompt is up: the
other sub-tab `1` is requested. -/
def panelWithRequest (membersTab : LLPanelGroupMembersSubTab) : LLPanelGroupRoles :=
  { mCurrentTab := some TabId.members, mRequestedTab := some (TabId.other 1), mHasModal := true,
    currentPanel := some TabId.members, membersTab := membersTab }

/-- The acting agent of the examples: id `1`, not godlike, with every power. -/
def sampleAgent : LLAgent :=
  { getID := 1, isGodlike := false, hasPowerInGroup := fun _ => true }

/-- Distinct values for the role constants, for the examples. -/
def sampleConstants : RolesConstants :=
  { GP_ROLE_ASSIGN_MEMBER := 0x20, GP_ROLE_ASSIGN_MEMBER_LIMITED := 0x40,
    GP_ROLE_REMOVE_MEMBER := 0x80, GP_ROLE_CHANGE_ACTIONS := 0x100, GP_ROLE_DELETE := 0x10 }

/-- The Owner role of `ownersGroup`, held by the members `1` and `3`. -/
def ownerRoleData : LLGroupRoleData :=
  { mRoleID := 9, mRoleData := { mRoleName := "Owners", mRolePowers := 0xff },
    mMemberIDs := [1, 3] }

/-- A group whose members `1` and `3` hold the Owner role `9` and whose member `2` holds no
role. -/
def ownersGroup : LLGroupMgrGroupData :=
  { mOwnerRole := 9
    mMembers := [(1, some { mRolesList := [(9, ownerRoleData)] }),
                 (2, some { mRolesList := [] }),
                 (3, some { mRolesList := [(9, ownerRoleData)] })]
    mRoles := [(9, some ownerRoleData)]
    getRoleData := fun id => if id = 9 then some ownerRoleData.mRoleData else none
    getRolePowers := fun id => if id = 9 then 0xff else GP_NO_POWERS }

/-! ## Lemmas on the association-list maps -/

theorem mapFind_insert_self {β : Type} (m : List (LLUUID × β)) (k : LLUUID) (v : β) :
    mapFind (mapInsert m k v) k = some v := by
  induction m with
  | nil => simp [mapInsert, mapFind]
  | cons e rest ih =>
    obtain ⟨k', v'⟩ := e
    simp only [mapInsert]
    split
    · simp [mapFind]
    · split
      · simp [mapFind]
      · rename_i h1 h2
        have hne : ¬ k' = k := fun h => h2 h.symm
        simp [mapFind, hne, ih]

theorem mapFind_insert_ne {β : Type} (m : List (LLUUID × β)) (k k2 : LLUUID) (v : β)
    (hne : k2 ≠ k) : mapFind (mapInsert m k v) k2 = mapFind m k2 := by
  induction m with
  | nil => simp [mapInsert, mapFind, Ne.symm hne]
  | cons e rest ih =>
    obtain ⟨k', v'⟩ := e
    simp only [mapInsert]
    split
    · simp [mapFind, Ne.symm hne]
    · split
      · rename_i h1 h2
        subst h2
        simp [mapFind, Ne.symm hne]
      · simp [mapFind, ih]

theorem mapFind_erase_self {β : Type} (m : List (LLUUID × β)) (k : LLUUID) :
    mapFind (mapErase m k) k = none := by
  induction m with
  | nil => simp [mapErase, mapFind]
  | cons e rest ih =>
    obtain ⟨k', v'⟩ := e
    by_cases h : k' = k
    · simpa [mapErase, List.filter_cons, h] using ih
    · have ih2 : mapFind (List.filter (fun e => e.1 != k) rest) k = none := ih
      simp [mapErase, List.filter_cons, h, mapFind, ih2]

theorem mapFind_erase_ne {β : Type} (m : List (LLUUID × β)) (k k2 : LLUUID) (hne : k2 ≠ k) :
    mapFind (mapErase m k) k2 = mapFind m k2 := by
  induction m with
  | nil => simp [mapErase, mapFind]
  | cons e rest ih =>
    obtain ⟨k', v'⟩ := e
    have ih2 : mapFind (List.filter (fun e => e.1 != k) rest) k2 = mapFind rest k2 := ih
    by_cases h : k' = k
    · subst h
      have hne2 : ¬ k' = k2 := fun h2 => hne h2.symm
      simp [mapErase, List.filter_cons, mapFind, ih2, hne2]
    · simp [mapErase, List.filter_cons, h, mapFind, ih2]

theorem mem_of_mapFind {β : Type} (m : List (LLUUID × β)) (k : LLUUID) (v : β)
    (h : mapFind m k = some v) : (k, v) ∈ m := by
  induction m with
  | nil => simp [mapFind] at h
  | cons e rest ih =>
    obtain ⟨k', v'⟩ := e
    simp only [mapFind] at h
    split at h
    · rename_i hk
      simp only [Option.some.injEq] at h
      subst hk; subst h
      exact List.mem_cons_self _ _
    · exact List.mem_cons_of_mem _ (ih h)

theorem mem_mapInsert {β : Type} (m : List (LLUUID × β)) (k : LLUUID) (v : β)
    (e : LLUUID × β) (h : e ∈ mapInsert m k v) : e = (k, v) ∨ e ∈ m := by
  induction m with
  | nil => simpa [mapInsert] using h
  | cons e' rest ih =>
    obtain ⟨k', v'⟩ := e'
    simp only [mapInsert] at h
    split at h
    · rcases List.mem_cons.mp h with h | h
      · exact Or.inl h
      · exact Or.inr h
    · split at h
      · rcases List.mem_cons.mp h with h | h
        · exact Or.inl h
        · exact Or.inr (List.mem_cons_of_mem _ h)
      · rcases List.mem_cons.mp h with h | h
        · exact Or.inr (h ▸ List.mem_cons_self _ _)
        · rcases ih h with h | h
          · exact Or.inl h
          · exact Or.inr (List.mem_cons_of_mem _ h)

theorem mem_mapErase {β : Type} (m : List (LLUUID × β)) (k : LLUUID)
    (e : LLUUID × β) (h : e ∈ mapErase m k) : e ∈ m :=
  (List.mem_filter.mp h).1

theorem mapSorted_nil {β : Type} : MapSorted ([] : List (LLUUID × β)) := by
  simp [MapSorted]

theorem mapSorted_cons {β : Type} (e : LLUUID × β) (m : List (LLUUID × β)) :
    MapSorted (e :: m) ↔ (∀ x ∈ m, e.1 < x.1) ∧ MapSorted m := by
  simp [MapSorted, List.pairwise_cons]

theorem mapSorted_insert {β : Type} (m : List (LLUUID × β)) (k : LLUUID) (v : β)
    (hm : MapSorted m) : MapSorted (mapInsert m k v) := by
  induction m with
  | nil => simp [mapInsert, MapSorted]
  | cons e rest ih =>
    obtain ⟨k', v'⟩ := e
    obtain ⟨hlt, hrest⟩ := (mapSorted_cons _ _).mp hm
    simp only [mapInsert]
    split
    · rename_i h1
      refine (mapSorted_cons _ _).mpr ⟨?_, hm⟩
      intro x hx
      rcases List.mem_cons.mp hx with hx | hx
      · subst hx; exact h1
      · exact lt_trans h1 (hlt x hx)
    · split
      · rename_i h1 h2
        subst h2
        exact (mapSorted_cons _ _).mpr ⟨hlt, hrest⟩
      · rename_i h1 h2
        refine (mapSorted_cons _ _).mpr ⟨?_, ih hrest⟩
        intro x hx
        rcases mem_mapInsert _ _ _ _ hx with hx | hx
        · subst hx
          show k' < k
          exact Nat.lt_of_le_of_ne (Nat.le_of_not_lt h1) (fun h => h2 h.symm)
        · exact hlt x hx

theorem mapSorted_erase {β : Type} (m : List (LLUUID × β)) (k : LLUUID)
    (hm : MapSorted m) : MapSorted (mapErase m k) := by
  unfold MapSorted mapErase at *
  exact hm.sublist ((List.filter_sublist m).map Prod.fst)

theorem mapFind_none_of_lt {β : Type} (m : List (LLUUID × β)) (k : LLUUID)
    (h : ∀ x ∈ m, k < x.1) : mapFind m k = none := by
  induction m with
  | nil => simp [mapFind]
  | cons e rest ih =>
    obtain ⟨k', v'⟩ := e
    have h1 : k < k' := h (k', v') (List.mem_cons_self _ _)
    have hne : ¬ k' = k := Nat.ne_of_gt h1
    simp only [mapFind, hne, if_false]
    exact ih (fun x hx => h x (List.mem_cons_of_mem _ hx))

/-- Two maps with the same lookups are the same map. -/
theorem map_ext {β : Type} (m1 m2 : List (LLUUID × β)) (h1 : MapSorted m1)
    (h2 : MapSorted m2) (h : ∀ k, mapFind m1 k = mapFind m2 k) : m1 = m2 := by
  induction m1 generalizing m2 with
  | nil =>
    cases m2 with
    | nil => rfl
    | cons e rest =>
      obtain ⟨k, v⟩ := e
      have := h k
      simp [mapFind] at this
  | cons e1 r1 ih =>
    obtain ⟨k1, v1⟩ := e1
    cases m2 with
    | nil =>
      have := h k1
      simp [mapFind] at this
    | cons e2 r2 =>
      obtain ⟨k2, v2⟩ := e2
      obtain ⟨hlt1, hr1⟩ := (mapSorted_cons _ _).mp h1
      obtain ⟨hlt2, hr2⟩ := (mapSorted_cons _ _).mp h2
      have hle21 : k2 ≤ k1 := by
        have hk := h k1
        simp only [mapFind, if_true] at hk
        by_cases hc : k2 = k1
        · exact Nat.le_of_eq hc
        · simp only [hc, if_false] at hk
          exact Nat.le_of_lt (hlt2 _ (mem_of_mapFind r2 k1 v1 hk.symm))
      have hle12 : k1 ≤ k2 := by
        have hk := h k2
        simp only [mapFind, if_true] at hk
        by_cases hc : k1 = k2
        · exact Nat.le_of_eq hc
        · simp only [hc, if_false] at hk
          exact Nat.le_of_lt (hlt1 _ (mem_of_mapFind r1 k2 v2 hk))
      have hk : k1 = k2 := Nat.le_antisymm hle12 hle21
      subst hk
      have hv : v1 = v2 := by
        have := h k1
        simpa [mapFind] using this
      subst hv
      have hrest : r1 = r2 := by
        apply ih r2 hr1 hr2
        intro k
        by_cases hc : k1 = k
        · subst hc
          rw [mapFind_none_of_lt r1 k1 hlt1, mapFind_none_of_lt r2 k1 hlt2]
        · have := h k
          simpa [mapFind, hc] using this
      rw [hrest]

/-! ## One recorded intent, seen through lookups -/

theorem mapInsert_isEmpty {β : Type} (m : List (LLUUID × β)) (k : LLUUID) (v : β) :
    (mapInsert m k v).isEmpty = false := by
  cases m with
  | nil => simp [mapInsert]
  | cons e rest =>
    obtain ⟨k', v'⟩ := e
    simp only [mapInsert]
    split
    · rfl
    · split <;> rfl

theorem isEmpty_of_mapFind {β : Type} (m : List (LLUUID × β)) (k : LLUUID) (v : β)
    (h : mapFind m k = some v) : m.isEmpty = false := by
  cases m with
  | nil => simp [mapFind] at h
  | cons e rest => rfl

theorem getD_nonEmptyOpt (rc : role_change_data_map_t) : (nonEmptyOpt rc).getD [] = rc := by
  unfold nonEmptyOpt
  cases rc with
  | nil => rfl
  | cons e rest => rfl

theorem mapFind_toggleRole_self (rc : role_change_data_map_t) (r : LLUUID)
    (t : LLRoleMemberChangeType) :
    mapFind (toggleRole rc r t) r = toggleIntent (mapFind rc r) t := by
  unfold toggleRole toggleIntent
  cases h : mapFind rc r with
  | none => simp [mapFind_insert_self]
  | some previous =>
    by_cases hp : previous = t
    · simp [hp, h]
    · simp [hp, mapFind_erase_self]

theorem mapFind_toggleRole_ne (rc : role_change_data_map_t) (r r2 : LLUUID)
    (t : LLRoleMemberChangeType) (hne : r2 ≠ r) :
    mapFind (toggleRole rc r t) r2 = mapFind rc r2 := by
  unfold toggleRole
  cases h : mapFind rc r with
  | none => simp [mapFind_insert_ne _ _ _ _ hne]
  | some previous =>
    by_cases hp : previous = t
    · simp [hp]
    · simp [hp, mapFind_erase_ne _ _ _ hne]

theorem mapSorted_toggleRole (rc : role_change_data_map_t) (r : LLUUID)
    (t : LLRoleMemberChangeType) (h : MapSorted rc) : MapSorted (toggleRole rc r t) := by
  unfold toggleRole
  cases hf : mapFind rc r with
  | none => exact mapSorted_insert _ _ _ h
  | some previous =>
    by_cases hp : previous = t
    · simpa [hp] using h
    · simpa [hp] using mapSorted_erase _ _ h

/-- Intents on two different roles of one member can be recorded in either order. -/
theorem toggleRole_comm (rc : role_change_data_map_t) (r1 r2 : LLUUID)
    (t1 t2 : LLRoleMemberChangeType) (h : MapSorted rc) (hne : r1 ≠ r2) :
    toggleRole (toggleRole rc r1 t1) r2 t2 = toggleRole (toggleRole rc r2 t2) r1 t1 := by
  apply map_ext
  · exact mapSorted_toggleRole _ _ _ (mapSorted_toggleRole _ _ _ h)
  · exact mapSorted_toggleRole _ _ _ (mapSorted_toggleRole _ _ _ h)
  · intro k
    by_cases hk1 : k = r1
    · subst hk1
      rw [mapFind_toggleRole_ne _ _ _ _ hne, mapFind_toggleRole_self, mapFind_toggleRole_self,
        mapFind_toggleRole_ne _ _ _ _ hne]
    · by_cases hk2 : k = r2
      · subst hk2
        rw [mapFind_toggleRole_self, mapFind_toggleRole_ne _ _ _ _ hk1,
          mapFind_toggleRole_ne _ _ _ _ hk1, mapFind_toggleRole_self]
      · rw [mapFind_toggleRole_ne _ _ _ _ hk2, mapFind_toggleRole_ne _ _ _ _ hk1,
          mapFind_toggleRole_ne _ _ _ _ hk1, mapFind_toggleRole_ne _ _ _ _ hk2]

/-- The pending changes of the selected member after one iteration of the loop of
`handleRoleCheck`. -/
theorem member_find_self (ty : CounterTy) (o : Bool) (r : LLUUID) (t : LLRoleMemberChangeType)
    (self : LLPanelGroupMembersSubTab) (m : LLUUID) :
    mapFind (handleRoleCheckMember ty o r t self m).mMemberRoleChangeData m
      = nonEmptyOpt (toggleRole ((mapFind self.mMemberRoleChangeData m).getD []) r t) := by
  unfold handleRoleCheckMember
  cases hfind : mapFind self.mMemberRoleChangeData m with
  | none =>
    simp only [mapFind_insert_self, Option.getD_some, Option.getD_none, mapFind]
    simp [toggleRole, mapFind, nonEmptyOpt, mapInsert, mapFind_insert_self]
  | some rc =>
    simp only [hfind, Option.getD_some]
    cases hrole : mapFind rc r with
    | none =>
      simp [toggleRole, hrole, nonEmptyOpt, mapInsert_isEmpty, mapFind_insert_self]
    | some previous =>
      by_cases hp : previous = t
      · have hne := isEmpty_of_mapFind rc r previous hrole
        simp [toggleRole, hrole, hp, nonEmptyOpt, hne, hfind]
      · cases he : (mapErase rc r).isEmpty with
        | true => simp [toggleRole, hrole, hp, nonEmptyOpt, he, mapFind_erase_self]
        | false => simp [toggleRole, hrole, hp, nonEmptyOpt, he, mapFind_insert_self]

/-- The pending changes of every other member are left alone. -/
theorem member_find_ne (ty : CounterTy) (o : Bool) (r : LLUUID) (t : LLRoleMemberChangeType)
    (self : LLPanelGroupMembersSubTab) (m m2 : LLUUID) (hne : m2 ≠ m) :
    mapFind (handleRoleCheckMember ty o r t self m).mMemberRoleChangeData m2
      = mapFind self.mMemberRoleChangeData m2 := by
  unfold handleRoleCheckMember
  cases hfind : mapFind self.mMemberRoleChangeData m with
  | none =>
    simp only [mapFind_insert_self, Option.getD_some, mapFind]
    simp [mapFind_insert_ne _ _ _ _ hne]
  | some rc =>
    simp only [hfind, Option.getD_some]
    cases hrole : mapFind rc r with
    | none => simp [mapFind_insert_ne _ _ _ _ hne]
    | some previous =>
      by_cases hp : previous = t
      · have hne2 := isEmpty_of_mapFind rc r previous hrole
        simp [hp, hne2]
      · cases he : (mapErase rc r).isEmpty with
        | true => simp [hp, he, mapFind_erase_ne _ _ _ hne]
        | false => simp [hp, he, mapFind_insert_ne _ _ _ _ hne]

theorem mapFind_of_mem {β : Type} (m : List (LLUUID × β)) (k : LLUUID) (v : β)
    (hm : MapSorted m) (h : (k, v) ∈ m) : mapFind m k = some v := by
  induction m with
  | nil => simp at h
  | cons e rest ih =>
    obtain ⟨k', v'⟩ := e
    obtain ⟨hlt, hrest⟩ := (mapSorted_cons _ _).mp hm
    rcases List.mem_cons.mp h with h | h
    · simp only [Prod.mk.injEq] at h
      obtain ⟨h1, h2⟩ := h
      subst h1; subst h2
      simp [mapFind]
    · have hne : ¬ k' = k := Nat.ne_of_lt (hlt _ h)
      simp only [mapFind, hne, if_false]
      exact ih hrest h

theorem member_sorted (ty : CounterTy) (o : Bool) (r : LLUUID) (t : LLRoleMemberChangeType)
    (self : LLPanelGroupMembersSubTab) (m : LLUUID)
    (h : MapSorted self.mMemberRoleChangeData) :
    MapSorted (handleRoleCheckMember ty o r t self m).mMemberRoleChangeData := by
  unfold handleRoleCheckMember
  cases hfind : mapFind self.mMemberRoleChangeData m with
  | none =>
    simp only [mapFind_insert_self, Option.getD_some, mapFind]
    exact mapSorted_insert _ _ _ (mapSorted_insert _ _ _ h)
  | some rc =>
    simp only [hfind, Option.getD_some]
    cases hrole : mapFind rc r with
    | none => exact mapSorted_insert _ _ _ h
    | some previous =>
      by_cases hp : previous = t
      · have hne2 := isEmpty_of_mapFind rc r previous hrole
        simpa [hp, hne2] using h
      · cases he : (mapErase rc r).isEmpty with
        | true => simpa [hp, he] using mapSorted_erase _ m h
        | false => simpa [hp, he] using mapSorted_insert _ m (mapErase rc r) h

theorem mapSorted_getD (data : member_role_changes_map_t) (m : LLUUID) (h : PendingWF data) :
    MapSorted ((mapFind data m).getD []) := by
  cases hf : mapFind data m with
  | none => exact mapSorted_nil
  | some rc => exact h.2 _ (mem_of_mapFind _ _ _ hf)

/-- One iteration of the loop of `handleRoleCheck` keeps the pending set well formed. -/
theorem member_wf (ty : CounterTy) (o : Bool) (r : LLUUID) (t : LLRoleMemberChangeType)
    (self : LLPanelGroupMembersSubTab) (m : LLUUID)
    (h : PendingWF self.mMemberRoleChangeData) :
    PendingWF (handleRoleCheckMember ty o r t self m).mMemberRoleChangeData := by
  have hs := member_sorted ty o r t self m h.1
  refine ⟨hs, ?_⟩
  intro e he
  obtain ⟨k, v⟩ := e
  have hf := mapFind_of_mem _ k v hs he
  by_cases hk : k = m
  · subst hk
    rw [member_find_self] at hf
    unfold nonEmptyOpt at hf
    split at hf
    · simp at hf
    · simp only [Option.some.injEq] at hf
      rw [← hf]
      exact mapSorted_toggleRole _ _ _ (mapSorted_getD _ _ h)
  · rw [member_find_ne _ _ _ _ _ _ _ hk] at hf
    exact h.2 _ (mem_of_mapFind _ _ _ hf)

/-- The pending set after one iteration depends on the pending set only. -/
theorem member_congr (ty : CounterTy) (o1 o2 : Bool) (r : LLUUID)
    (t : LLRoleMemberChangeType) (s1 s2 : LLPanelGroupMembersSubTab) (m : LLUUID)
    (h : s1.mMemberRoleChangeData = s2.mMemberRoleChangeData) :
    (handleRoleCheckMember ty o1 r t s1 m).mMemberRoleChangeData
      = (handleRoleCheckMember ty o2 r t s2 m).mMemberRoleChangeData := by
  unfold handleRoleCheckMember
  rw [h]
  cases hfind : mapFind s2.mMemberRoleChangeData m with
  | none => simp [mapFind_insert_self, mapFind]
  | some rc =>
    simp only [hfind, Option.getD_some]
    cases hrole : mapFind rc r with
    | none => simp
    | some previous =>
      by_cases hp : previous = t
      · have hne2 := isEmpty_of_mapFind rc r previous hrole
        simp [hp, hne2, h]
      · cases he : (mapErase rc r).isEmpty with
        | true => simp [hp, he]
        | false => simp [hp, he]

/-- Intents on two different (member, role) pairs can be recorded in either order. -/
theorem member_comm (ty : CounterTy) (o1 o2 o3 o4 : Bool) (r1 r2 : LLUUID)
    (t1 t2 : LLRoleMemberChangeType) (self : LLPanelGroupMembersSubTab) (m1 m2 : LLUUID)
    (h : PendingWF self.mMemberRoleChangeData) (hne : (m1, r1) ≠ (m2, r2)) :
    (handleRoleCheckMember ty o2 r2 t2 (handleRoleCheckMember ty o1 r1 t1 self m1)
        m2).mMemberRoleChangeData
      = (handleRoleCheckMember ty o3 r1 t1 (handleRoleCheckMember ty o4 r2 t2 self m2)
        m1).mMemberRoleChangeData := by
  apply map_ext
  · exact member_sorted _ _ _ _ _ _ (member_sorted _ _ _ _ _ _ h.1)
  · exact member_sorted _ _ _ _ _ _ (member_sorted _ _ _ _ _ _ h.1)
  · intro k
    by_cases hm : m1 = m2
    · subst hm
      have hr : r1 ≠ r2 := fun hr => hne (by rw [hr])
      by_cases hk : k = m1
      · subst hk
        rw [member_find_self, member_find_self, member_find_self, member_find_self,
          getD_nonEmptyOpt, getD_nonEmptyOpt,
          toggleRole_comm _ _ _ _ _ (mapSorted_getD _ _ h) hr]
      · rw [member_find_ne _ _ _ _ _ _ _ hk, member_find_ne _ _ _ _ _ _ _ hk,
          member_find_ne _ _ _ _ _ _ _ hk, member_find_ne _ _ _ _ _ _ _ hk]
    · by_cases hk1 : k = m1
      · subst hk1
        rw [member_find_ne _ _ _ _ _ _ _ hm, member_find_self, member_find_self,
          member_find_ne _ _ _ _ _ _ _ hm]
      · by_cases hk2 : k = m2
        · subst hk2
          rw [member_find_self, member_find_ne _ _ _ _ _ _ _ hk1, member_find_ne _ _ _ _ _ _ _ hk1,
            member_find_self]
        · rw [member_find_ne _ _ _ _ _ _ _ hk2, member_find_ne _ _ _ _ _ _ _ hk1,
            member_find_ne _ _ _ _ _ _ _ hk1, member_find_ne _ _ _ _ _ _ _ hk2]

/-! ## Lemmas on folds -/

theorem foldl_append_calls {α : Type} (f : α → List Effect) (l : List α) (init : List Effect) :
    l.foldl (fun calls x => calls ++ f x) init = init ++ l.flatMap f := by
  induction l generalizing init with
  | nil => simp
  | cons x xs ih => simp [List.foldl_cons, ih, List.flatMap_cons, List.append_assoc]

theorem changeRoleMemberCalls_eq (data : member_role_changes_map_t) :
    changeRoleMemberCalls data = (entries data).map commitCall := by
  unfold changeRoleMemberCalls entries
  have inner : ∀ (member : LLUUID × role_change_data_map_t) (calls : List Effect),
      member.2.foldl
        (fun calls role => calls ++ [Effect.changeRoleMember role.1 member.1 role.2]) calls
      = calls ++ member.2.flatMap
          (fun role => [Effect.changeRoleMember role.1 member.1 role.2]) := by
    intro member calls
    exact foldl_append_calls _ _ _
  simp only [inner]
  rw [foldl_append_calls]
  simp only [List.nil_append, List.map_flatMap]
  congr 1
  funext member
  induction member.2 with
  | nil => simp
  | cons r rs ih => simp [List.flatMap_cons, commitCall, ih]

theorem commitCall_injective : Function.Injective commitCall := by
  intro a b h
  obtain ⟨a1, a2, a3⟩ := a
  obtain ⟨b1, b2, b3⟩ := b
  simp only [commitCall, Effect.changeRoleMember.injEq] at h
  obtain ⟨h1, h2, h3⟩ := h
  simp [h1, h2, h3]

theorem foldl_lor_eq {α : Type} (f : α → U64) (l : List α) (p : U64) :
    l.foldl (fun acc r => acc ||| f r) p = p ||| orAll (l.map f) := by
  induction l generalizing p with
  | nil => simp [orAll, GP_NO_POWERS]
  | cons x xs ih =>
    simp only [List.foldl_cons, List.map_cons, ih]
    simp [orAll, Nat.lor_assoc]

theorem foldl_lor_unless_eq {α : Type} (f : α → U64) (skip : α → Bool) (l : List α) (p : U64) :
    l.foldl (fun acc r => if skip r then acc else acc ||| f r) p
      = p ||| orAll ((l.filter (fun r => !skip r)).map f) := by
  induction l generalizing p with
  | nil => simp [orAll, GP_NO_POWERS]
  | cons x xs ih =>
    simp only [List.foldl_cons, ih]
    cases hx : skip x
    · simp [List.filter_cons, hx, orAll, Nat.lor_assoc]
    · simp [List.filter_cons, hx]

/-- The first loop of `getAgentPowersBasedOnRoleChanges`: the powers of the added roles are
ORed in, the ids of the other entries are appended to the remove list. -/
theorem roleChanges_loop_eq (getRolePowers : LLUUID → U64) (rc : role_change_data_map_t)
    (p : U64) (rl : List LLUUID) :
    rc.foldl
        (fun (acc : U64 × List LLUUID) role =>
          if role.2 = RMC_ADD then (acc.1 ||| getRolePowers role.1, acc.2)
          else (acc.1, acc.2 ++ [role.1]))
        (p, rl)
      = (p ||| orAll ((rc.filter (fun role => decide (role.2 = RMC_ADD))).map
              (fun role => getRolePowers role.1)),
         rl ++ (rc.filter (fun role => decide (role.2 ≠ RMC_ADD))).map Prod.fst) := by
  induction rc generalizing p rl with
  | nil => simp [orAll, GP_NO_POWERS]
  | cons x xs ih =>
    simp only [List.foldl_cons]
    by_cases hx : x.2 = RMC_ADD
    · simp [hx, ih, List.filter_cons, orAll, Nat.lor_assoc]
    · simp [hx, ih, List.filter_cons, List.append_assoc]

theorem mem_removeList_iff (rc : role_change_data_map_t) (id : LLUUID) :
    id ∈ (rc.filter (fun role => decide (role.2 ≠ RMC_ADD))).map Prod.fst
      ↔ (id, RMC_REMOVE) ∈ rc := by
  constructor
  · intro h
    obtain ⟨⟨k, t⟩, hmem, hk⟩ := List.mem_map.mp h
    obtain ⟨hin, ht⟩ := List.mem_filter.mp hmem
    cases t with
    | RMC_ADD => simp at ht
    | RMC_REMOVE =>
      simp only at hk
      subst hk
      exact hin
  · intro h
    exact List.mem_map.mpr ⟨(id, RMC_REMOVE), List.mem_filter.mpr ⟨h, by simp⟩, rfl⟩

/-! ## The owner-addition counter against the pending set -/

/-- C1, the code at two reachable states. With member `1` selected, un-checking and then
re-checking the Owner role leaves no pending entry, yet the counter has been decremented
from 0 (the cancelled entry was an `RMC_REMOVE`); and `cancel` after an Owner-role
`RMC_ADD` empties the pending set while the counter stays 1. In both states the counter
differs from the number of pending Owner-role additions. -/
theorem C1_counter_differs_from_pending_owner_additions (ty : CounterTy) :
    numOwnerAddEntries sampleGroup.mOwnerRole
        (handleRoleCheck ty (some sampleGroup) [1] 9 RMC_ADD
          (handleRoleCheck ty (some sampleGroup) [1] 9 RMC_REMOVE
            .new)).mMemberRoleChangeData = 0
    ∧ (handleRoleCheck ty (some sampleGroup) [1] 9 RMC_ADD
          (handleRoleCheck ty (some sampleGroup) [1] 9 RMC_REMOVE .new)).mNumOwnerAdditions
        = ty.wrap (-1)
    ∧ ty.wrap (-1) ≠ 0
    ∧ numOwnerAddEntries sampleGroup.mOwnerRole
        (cancel (handleRoleCheck ty (some sampleGroup) [2] 9 RMC_ADD
          .new)).mMemberRoleChangeData = 0
    ∧ (cancel (handleRoleCheck ty (some sampleGroup) [2] 9 RMC_ADD .new)).mNumOwnerAdditions
        = 1 := by
  cases ty <;> decide

/-- C2, the code at the Owner role with starting direction `RMC_REMOVE`. From the fresh
sub-tab, `handleRoleCheck(Owner, RMC_REMOVE)` followed by `handleRoleCheck(Owner, RMC_ADD)`
with member `1` selected leaves no entry for the pair, but the counter, 0 before the two
calls, has been decremented. -/
theorem C2_owner_remove_then_add_moves_counter (ty : CounterTy) :
    getRoleChangeType LLPanelGroupMembersSubTab.new 1 9 = none
    ∧ getRoleChangeType
        (handleRoleCheck ty (some sampleGroup) [1] 9 RMC_ADD
          (handleRoleCheck ty (some sampleGroup) [1] 9 RMC_REMOVE .new)) 1 9 = none
    ∧ (handleRoleCheck ty (some sampleGroup) [1] 9 RMC_ADD
          (handleRoleCheck ty (some sampleGroup) [1] 9 RMC_REMOVE .new)).mNumOwnerAdditions
        ≠ LLPanelGroupMembersSubTab.new.mNumOwnerAdditions := by
  cases ty <;> decide

/-- C3, the code after one pending Owner-role addition. `cancel` empties the pending set
and makes `needsApply` false, but leaves `mNumOwnerAdditions` at 1. -/
theorem C3_cancel_keeps_counter (ty : CounterTy) :
    (cancel (handleRoleCheck ty (some sampleGroup) [2] 9 RMC_ADD .new)).mMemberRoleChangeData
        = []
    ∧ needsApply (cancel (handleRoleCheck ty (some sampleGroup) [2] 9 RMC_ADD .new)) = false
    ∧ (cancel (handleRoleCheck ty (some sampleGroup) [2] 9 RMC_ADD .new)).mNumOwnerAdditions
        = 1 := by
  cases ty <;> decide

/-- C5, the code after three clicks. Member `1`: Owner role un-checked, then re-checked
(the counter leaves 0 downwards); member `2`: Owner role checked (the counter is back at 0).
The pending set now holds the `RMC_ADD` entry (2, Owner), and `apply` commits it with
`changeRoleMember` without raising `AddGroupOwnerWarning`. -/
theorem C5_owner_addition_committed_without_warning (ty : CounterTy) :
    entries (handleRoleCheck ty (some sampleGroup) [2] 9 RMC_ADD
        (handleRoleCheck ty (some sampleGroup) [1] 9 RMC_ADD
          (handleRoleCheck ty (some sampleGroup) [1] 9 RMC_REMOVE
            .new))).mMemberRoleChangeData = [(2, sampleGroup.mOwnerRole, RMC_ADD)]
    ∧ (handleRoleCheck ty (some sampleGroup) [2] 9 RMC_ADD
        (handleRoleCheck ty (some sampleGroup) [1] 9 RMC_ADD
          (handleRoleCheck ty (some sampleGroup) [1] 9 RMC_REMOVE
            .new))).mNumOwnerAdditions = 0
    ∧ (apply (some sampleGroup)
        (handleRoleCheck ty (some sampleGroup) [2] 9 RMC_ADD
          (handleRoleCheck ty (some sampleGroup) [1] 9 RMC_ADD
            (handleRoleCheck ty (some sampleGroup) [1] 9 RMC_REMOVE .new)))).effects
        = [Effect.changeRoleMember 9 2 RMC_ADD, Effect.sendGroupRoleMemberChanges] := by
  cases ty <;> decide

/-! ## Commit and the confirmation gate -/

/-- C4. With group data available, `applyMemberChanges` makes one `changeRoleMember` call for
each pending (member, role, direction) entry, with that entry's role, member and direction:
the calls are the entries in iteration order, there are as many calls as entries, every call
occurs as often as its entry; afterwards the pending set is empty, `mNumOwnerAdditions` is 0
and `mChanged` is false. -/
theorem C4_applyMemberChanges_commits_every_entry_once (gd : LLGroupMgrGroupData)
    (self : LLPanelGroupMembersSubTab) :
    (applyMemberChanges (some gd) self).2
        = (entries self.mMemberRoleChangeData).map commitCall
          ++ [Effect.sendGroupRoleMemberChanges]
    ∧ ((applyMemberChanges (some gd) self).2.filter Effect.isChangeRoleMember).length
        = (entries self.mMemberRoleChangeData).length
    ∧ (∀ e, (applyMemberChanges (some gd) self).2.countP (fun c => decide (c = commitCall e))
        = (entries self.mMemberRoleChangeData).countP (fun x => decide (x = e)))
    ∧ (applyMemberChanges (some gd) self).1.mMemberRoleChangeData = []
    ∧ (applyMemberChanges (some gd) self).1.mNumOwnerAdditions = 0
    ∧ (applyMemberChanges (some gd) self).1.mChanged = false := by
  have hcalls : (applyMemberChanges (some gd) self).2
      = (entries self.mMemberRoleChangeData).map commitCall
        ++ [Effect.sendGroupRoleMemberChanges] := by
    simp [applyMemberChanges, changeRoleMemberCalls_eq]
  refine ⟨hcalls, ?_, ?_, rfl, rfl, rfl⟩
  · rw [hcalls, List.filter_append]
    have hall : ∀ l : List (LLUUID × LLUUID × LLRoleMemberChangeType),
        (l.map commitCall).filter Effect.isChangeRoleMember = l.map commitCall := by
      intro l
      apply List.filter_eq_self.mpr
      intro x hx
      obtain ⟨e, _, rfl⟩ := List.mem_map.mp hx
      rfl
    rw [hall]
    simp [Effect.isChangeRoleMember]
  · intro e
    rw [hcalls, List.countP_append, List.countP_map]
    have hfun : ((fun c => decide (c = commitCall e)) ∘ commitCall)
        = (fun x => decide (x = e)) := by
      funext x
      simp [commitCall_injective.eq_iff]
    rw [hfun]
    simp [commitCall]

/-- C6. When the owner-addition confirmation is answered with an option other than 0,
`addOwnerCB` makes no call at all and leaves every field as it was, except that `mHasModal`
is reset to false. -/
theorem C6_addOwnerCB_declined_changes_nothing (gdatap : Option LLGroupMgrGroupData)
    (option : Int) (self : LLPanelGroupMembersSubTab) (hno : option ≠ 0) :
    addOwnerCB gdatap option self = ({ self with mHasModal := false }, []) := by
  simp [addOwnerCB, hno]

theorem C6_addOwnerCB_declined_witness :
    addOwnerCB (some sampleGroup) 1
        (handleRoleCheck .U32 (some sampleGroup) [2] 9 RMC_ADD .new)
      = ({ handleRoleCheck .U32 (some sampleGroup) [2] 9 RMC_ADD .new with mHasModal := false },
         []) :=
  C6_addOwnerCB_declined_changes_nothing (some sampleGroup) 1 _ (by decide)

/-! ## Lemmas on the effective power mask -/

theorem powers_of_no_entry (gd : LLGroupMgrGroupData)
    (self : LLPanelGroupMembersSubTab) (agent_id : LLUUID) (member_data : LLGroupMemberData)
    (hmember : mapFind gd.mMembers agent_id = some (some member_data))
    (hnone : mapFind self.mMemberRoleChangeData agent_id = none) :
    getAgentPowersBasedOnRoleChanges (some gd) self agent_id
      = orAll (member_data.mRolesList.map (fun r => r.2.mRoleData.mRolePowers)) := by
  simp only [getAgentPowersBasedOnRoleChanges, hmember, hnone,
    LLGroupMemberData.getAgentPowers]
  rw [foldl_lor_eq]
  simp [GP_NO_POWERS]

theorem powers_of_entry (gd : LLGroupMgrGroupData)
    (self : LLPanelGroupMembersSubTab) (agent_id : LLUUID) (member_data : LLGroupMemberData)
    (role_changes : role_change_data_map_t)
    (hmember : mapFind gd.mMembers agent_id = some (some member_data))
    (hsome : mapFind self.mMemberRoleChangeData agent_id = some role_changes) :
    getAgentPowersBasedOnRoleChanges (some gd) self agent_id
      = orAll ((member_data.mRolesList.filter
            (fun r => decide ((r.2.mRoleID, RMC_REMOVE) ∉ role_changes))).map
            (fun r => r.2.mRoleData.mRolePowers))
        ||| orAll ((role_changes.filter (fun role => decide (role.2 = RMC_ADD))).map
            (fun role => gd.getRolePowers role.1)) := by
  simp only [getAgentPowersBasedOnRoleChanges, hmember, hsome]
  rw [roleChanges_loop_eq, foldl_lor_unless_eq]
  simp only [List.nil_append]
  have hfilter : (member_data.mRolesList.filter (fun r =>
        !((role_changes.filter (fun role => decide (role.2 ≠ RMC_ADD))).map Prod.fst).contains
          r.2.mRoleID))
      = member_data.mRolesList.filter
          (fun r => decide ((r.2.mRoleID, RMC_REMOVE) ∉ role_changes)) := by
    apply List.filter_congr
    intro r _
    by_cases h : (r.2.mRoleID, RMC_REMOVE) ∈ role_changes
    · have h2 := (mem_removeList_iff role_changes r.2.mRoleID).mpr h
      have h3 : ((role_changes.filter (fun role => decide (role.2 ≠ RMC_ADD))).map
          Prod.fst).contains r.2.mRoleID = true := List.elem_iff.mpr h2
      rw [h3]
      simp [h]
    · have h2 : r.2.mRoleID ∉
          (role_changes.filter (fun role => decide (role.2 ≠ RMC_ADD))).map Prod.fst :=
        fun hc => h ((mem_removeList_iff role_changes r.2.mRoleID).mp hc)
      have h3 : ((role_changes.filter (fun role => decide (role.2 ≠ RMC_ADD))).map
          Prod.fst).contains r.2.mRoleID = false := by
        cases hc : ((role_changes.filter (fun role => decide (role.2 ≠ RMC_ADD))).map
          Prod.fst).contains r.2.mRoleID
        · rfl
        · exact absurd (List.elem_iff.mp hc) h2
      rw [h3]
      simp [h]
  rw [hfilter]
  simp only [GP_NO_POWERS, Nat.zero_or]
  exact Nat.lor_comm _ _

/-- The effective mask reads the pending set and the group data only. -/
theorem powers_congr (gdatap : Option LLGroupMgrGroupData)
    (s1 s2 : LLPanelGroupMembersSubTab) (agent_id : LLUUID)
    (h : s1.mMemberRoleChangeData = s2.mMemberRoleChangeData) :
    getAgentPowersBasedOnRoleChanges gdatap s1 agent_id
      = getAgentPowersBasedOnRoleChanges gdatap s2 agent_id := by
  unfold getAgentPowersBasedOnRoleChanges
  rw [h]

/-! ## Recording intents one member at a time -/

theorem recordIntent_data (ty : CounterTy) (gd : LLGroupMgrGroupData)
    (self : LLPanelGroupMembersSubTab) (rec : Recording) :
    (recordIntent ty (some gd) self rec).mMemberRoleChangeData
      = (handleRoleCheckMember ty (decide (gd.mOwnerRole = rec.role)) rec.role rec.type self
          rec.member).mMemberRoleChangeData := by
  simp [recordIntent, handleRoleCheck, handleRoleCheckFull, handleRoleCheckIter]

theorem recordIntent_wf (ty : CounterTy) (gd : LLGroupMgrGroupData)
    (self : LLPanelGroupMembersSubTab) (rec : Recording)
    (h : PendingWF self.mMemberRoleChangeData) :
    PendingWF (recordIntent ty (some gd) self rec).mMemberRoleChangeData := by
  rw [recordIntent_data]
  exact member_wf _ _ _ _ _ _ h

theorem recordIntent_congr (ty : CounterTy) (gd : LLGroupMgrGroupData)
    (s1 s2 : LLPanelGroupMembersSubTab) (rec : Recording)
    (h : s1.mMemberRoleChangeData = s2.mMemberRoleChangeData) :
    (recordIntent ty (some gd) s1 rec).mMemberRoleChangeData
      = (recordIntent ty (some gd) s2 rec).mMemberRoleChangeData := by
  rw [recordIntent_data, recordIntent_data]
  exact member_congr _ _ _ _ _ _ _ _ h

theorem recordIntent_comm (ty : CounterTy) (gd : LLGroupMgrGroupData)
    (self : LLPanelGroupMembersSubTab) (a b : Recording)
    (h : PendingWF self.mMemberRoleChangeData)
    (hne : (a.member, a.role) ≠ (b.member, b.role)) :
    (recordIntent ty (some gd) (recordIntent ty (some gd) self a) b).mMemberRoleChangeData
      = (recordIntent ty (some gd) (recordIntent ty (some gd) self b)
          a).mMemberRoleChangeData := by
  rw [recordIntent_data, recordIntent_data]
  rw [member_congr ty _ (decide (gd.mOwnerRole = b.role)) b.role b.type
      (recordIntent ty (some gd) self a)
      (handleRoleCheckMember ty (decide (gd.mOwnerRole = a.role)) a.role a.type self a.member)
      b.member (recordIntent_data ty gd self a)]
  rw [member_congr ty _ (decide (gd.mOwnerRole = a.role)) a.role a.type
      (recordIntent ty (some gd) self b)
      (handleRoleCheckMember ty (decide (gd.mOwnerRole = b.role)) b.role b.type self b.member)
      a.member (recordIntent_data ty gd self b)]
  exact member_comm _ _ _ _ _ _ _ _ _ _ _ _ h hne

theorem recordAll_wf (ty : CounterTy) (gd : LLGroupMgrGroupData) (l : List Recording)
    (self : LLPanelGroupMembersSubTab) (h : PendingWF self.mMemberRoleChangeData) :
    PendingWF (recordAll ty (some gd) l self).mMemberRoleChangeData := by
  induction l generalizing self with
  | nil => exact h
  | cons x xs ih => exact ih _ (recordIntent_wf _ _ _ _ h)

theorem recordAll_congr (ty : CounterTy) (gd : LLGroupMgrGroupData) (l : List Recording)
    (s1 s2 : LLPanelGroupMembersSubTab)
    (h : s1.mMemberRoleChangeData = s2.mMemberRoleChangeData) :
    (recordAll ty (some gd) l s1).mMemberRoleChangeData
      = (recordAll ty (some gd) l s2).mMemberRoleChangeData := by
  induction l generalizing s1 s2 with
  | nil => exact h
  | cons x xs ih => exact ih _ _ (recordIntent_congr _ _ _ _ _ h)

theorem recordAll_none (ty : CounterTy) (l : List Recording)
    (self : LLPanelGroupMembersSubTab) : recordAll ty none l self = self := by
  induction l generalizing self with
  | nil => rfl
  | cons x xs ih =>
    have hx : recordIntent ty none self x = self := rfl
    simp only [recordAll, List.foldl_cons, hx]
    exact ih self

theorem recordAll_perm (ty : CounterTy) (gd : LLGroupMgrGroupData) (l1 l2 : List Recording)
    (hperm : l1.Perm l2) :
    (l1.map (fun r => (r.member, r.role))).Nodup →
    ∀ self : LLPanelGroupMembersSubTab, PendingWF self.mMemberRoleChangeData →
      (recordAll ty (some gd) l1 self).mMemberRoleChangeData
        = (recordAll ty (some gd) l2 self).mMemberRoleChangeData := by
  induction hperm with
  | nil => intro _ self _; rfl
  | cons x _ ih =>
    intro hnd self hwf
    exact ih (List.nodup_cons.mp hnd).2 _ (recordIntent_wf _ _ _ _ hwf)
  | swap x y l =>
    intro hnd self hwf
    have hxy : (y.member, y.role) ≠ (x.member, x.role) := by
      intro heq
      have := (List.nodup_cons.mp hnd).1
      simp [heq] at this
    exact recordAll_congr _ _ l _ _ (recordIntent_comm _ _ _ _ _ hwf hxy)
  | trans h1 _ ih1 ih2 =>
    intro hnd self hwf
    have hnd2 := (List.Perm.nodup_iff (h1.map _)).mp hnd
    exact (ih1 hnd self hwf).trans (ih2 hnd2 self hwf)

/-! ## The effective power mask -/

/-- C7. For a member of the group (with member data) that has no entry in the pending set,
`getAgentPowersBasedOnRoleChanges` returns the bitwise OR of the power bitmasks of the roles
the member is committed to. -/
theorem C7_powers_without_pending_changes (gd : LLGroupMgrGroupData)
    (self : LLPanelGroupMembersSubTab) (agent_id : LLUUID) (member_data : LLGroupMemberData)
    (hmember : mapFind gd.mMembers agent_id = some (some member_data))
    (hnone : mapFind self.mMemberRoleChangeData agent_id = none) :
    getAgentPowersBasedOnRoleChanges (some gd) self agent_id
      = orAll (member_data.mRolesList.map (fun r => r.2.mRoleData.mRolePowers)) :=
  powers_of_no_entry gd self agent_id member_data hmember hnone

/-- C8. For a member of the group that has an entry in the pending set,
`getAgentPowersBasedOnRoleChanges` returns the OR of the committed power masks of the roles
the member holds whose id is not marked `RMC_REMOVE` for the member, ORed with the OR of
`getRolePowers(role)` over the roles marked `RMC_ADD` for the member. (The function is
embedded as a function of the group data and the fields: it writes neither.) -/
theorem C8_powers_with_pending_changes (gd : LLGroupMgrGroupData)
    (self : LLPanelGroupMembersSubTab) (agent_id : LLUUID) (member_data : LLGroupMemberData)
    (role_changes : role_change_data_map_t)
    (hmember : mapFind gd.mMembers agent_id = some (some member_data))
    (hsome : mapFind self.mMemberRoleChangeData agent_id = some role_changes) :
    getAgentPowersBasedOnRoleChanges (some gd) self agent_id
      = orAll ((member_data.mRolesList.filter
            (fun r => decide ((r.2.mRoleID, RMC_REMOVE) ∉ role_changes))).map
            (fun r => r.2.mRoleData.mRolePowers))
        ||| orAll ((role_changes.filter (fun role => decide (role.2 = RMC_ADD))).map
            (fun role => gd.getRolePowers role.1)) :=
  powers_of_entry gd self agent_id member_data role_changes hmember hsome

/-- C9. Recordings on pairwise distinct (member, role) pairs, each made by `handleRoleCheck`
with a single selected member, give the same pending set in every order, and so the same
effective mask for every member. -/
theorem C9_recordings_commute (ty : CounterTy) (gdatap : Option LLGroupMgrGroupData)
    (self : LLPanelGroupMembersSubTab) (l1 l2 : List Recording)
    (hwf : PendingWF self.mMemberRoleChangeData) (hperm : l1.Perm l2)
    (hdistinct : (l1.map (fun r => (r.member, r.role))).Nodup) :
    (recordAll ty gdatap l1 self).mMemberRoleChangeData
        = (recordAll ty gdatap l2 self).mMemberRoleChangeData
    ∧ ∀ agent_id,
        getAgentPowersBasedOnRoleChanges gdatap (recordAll ty gdatap l1 self) agent_id
          = getAgentPowersBasedOnRoleChanges gdatap (recordAll ty gdatap l2 self) agent_id := by
  have hdata : (recordAll ty gdatap l1 self).mMemberRoleChangeData
      = (recordAll ty gdatap l2 self).mMemberRoleChangeData := by
    cases gdatap with
    | none => rw [recordAll_none, recordAll_none]
    | some gd => exact recordAll_perm ty gd l1 l2 hperm hdistinct self hwf
  exact ⟨hdata, fun agent_id => powers_congr gdatap _ _ agent_id hdata⟩

theorem C7_powers_without_pending_changes_witness :
    getAgentPowersBasedOnRoleChanges (some scenarioGroup) .new 1 = 0x3 :=
  (C7_powers_without_pending_changes scenarioGroup .new 1 scenarioMember rfl rfl).trans
    (by decide)

theorem C8_powers_with_pending_changes_witness :
    getAgentPowersBasedOnRoleChanges (some scenarioGroup)
      (handleRoleCheck .U32 (some scenarioGroup) [1] 10 RMC_REMOVE
        (handleRoleCheck .U32 (some scenarioGroup) [1] 9 RMC_ADD .new)) 1 = 0x2 :=
  (C8_powers_with_pending_changes scenarioGroup
      (handleRoleCheck .U32 (some scenarioGroup) [1] 10 RMC_REMOVE
        (handleRoleCheck .U32 (some scenarioGroup) [1] 9 RMC_ADD .new))
      1 scenarioMember [(9, RMC_ADD), (10, RMC_REMOVE)] rfl (by decide)).trans
    (by decide)

theorem C9_recordings_commute_witness :
    (recordAll .U32 (some scenarioGroup)
        [⟨1, 10, RMC_REMOVE⟩, ⟨2, 9, RMC_ADD⟩, ⟨1, 9, RMC_ADD⟩] .new).mMemberRoleChangeData
      = (recordAll .U32 (some scenarioGroup)
        [⟨2, 9, RMC_ADD⟩, ⟨1, 10, RMC_REMOVE⟩, ⟨1, 9, RMC_ADD⟩] .new).mMemberRoleChangeData
    ∧ ∀ agent_id,
        getAgentPowersBasedOnRoleChanges (some scenarioGroup)
            (recordAll .U32 (some scenarioGroup)
              [⟨1, 10, RMC_REMOVE⟩, ⟨2, 9, RMC_ADD⟩, ⟨1, 9, RMC_ADD⟩] .new) agent_id
          = getAgentPowersBasedOnRoleChanges (some scenarioGroup)
            (recordAll .U32 (some scenarioGroup)
              [⟨2, 9, RMC_ADD⟩, ⟨1, 10, RMC_REMOVE⟩, ⟨1, 9, RMC_ADD⟩] .new) agent_id :=
  C9_recordings_commute .U32 (some scenarioGroup) .new _ _
    ⟨by simp [MapSorted, LLPanelGroupMembersSubTab.new],
     by simp [LLPanelGroupMembersSubTab.new]⟩
    (List.Perm.swap _ _ _) (by decide)

/-- C10. Scenario: member M is committed to exactly the roles A (powers 0x1) and B (powers
0x2) and has no pending intent. After `handleRoleCheck(A, RMC_REMOVE)` with M selected the
effective mask of M is 0x2; after a following `handleRoleCheck(A, RMC_ADD)` it is 0x3 and M
has no entry in the pending set. -/
theorem C10_remove_then_add_scenario (ty : CounterTy) (gd : LLGroupMgrGroupData)
    (self : LLPanelGroupMembersSubTab) (M A B : LLUUID) (roleA roleB : LLGroupRoleData)
    (hmember : mapFind gd.mMembers M
      = some (some { mRolesList := [(A, roleA), (B, roleB)] }))
    (hidA : roleA.mRoleID = A) (hidB : roleB.mRoleID = B) (hAB : A ≠ B)
    (hpowA : roleA.mRoleData.mRolePowers = 0x1) (hpowB : roleB.mRoleData.mRolePowers = 0x2)
    (hnone : mapFind self.mMemberRoleChangeData M = none) :
    getAgentPowersBasedOnRoleChanges (some gd)
        (handleRoleCheck ty (some gd) [M] A RMC_REMOVE self) M = 0x2
    ∧ getAgentPowersBasedOnRoleChanges (some gd)
        (handleRoleCheck ty (some gd) [M] A RMC_ADD
          (handleRoleCheck ty (some gd) [M] A RMC_REMOVE self)) M = 0x3
    ∧ mapFind (handleRoleCheck ty (some gd) [M] A RMC_ADD
          (handleRoleCheck ty (some gd) [M] A RMC_REMOVE self)).mMemberRoleChangeData M
        = none := by
  have h1 : mapFind (handleRoleCheck ty (some gd) [M] A RMC_REMOVE
      self).mMemberRoleChangeData M = some [(A, RMC_REMOVE)] := by
    have hd := recordIntent_data ty gd self ⟨M, A, RMC_REMOVE⟩
    simp only [recordIntent] at hd
    rw [hd, member_find_self, hnone]
    simp [toggleRole, mapFind, mapInsert, nonEmptyOpt]
  have h2 : mapFind (handleRoleCheck ty (some gd) [M] A RMC_ADD
      (handleRoleCheck ty (some gd) [M] A RMC_REMOVE self)).mMemberRoleChangeData M
      = none := by
    have hd := recordIntent_data ty gd
      (handleRoleCheck ty (some gd) [M] A RMC_REMOVE self) ⟨M, A, RMC_ADD⟩
    simp only [recordIntent] at hd
    rw [hd, member_find_self, h1]
    simp [toggleRole, mapFind, mapErase, nonEmptyOpt]
  refine ⟨?_, ?_, h2⟩
  · rw [powers_of_entry gd _ M _ _ hmember h1]
    simp [hidA, hidB, hAB, Ne.symm hAB, hpowA, hpowB, orAll, GP_NO_POWERS]
  · rw [powers_of_no_entry gd _ M _ hmember h2]
    simp [hpowA, hpowB, orAll, GP_NO_POWERS]

theorem C10_remove_then_add_scenario_witness :
    getAgentPowersBasedOnRoleChanges (some scenarioGroup)
        (handleRoleCheck .U32 (some scenarioGroup) [1] 10 RMC_REMOVE .new) 1 = 0x2
    ∧ getAgentPowersBasedOnRoleChanges (some scenarioGroup)
        (handleRoleCheck .U32 (some scenarioGroup) [1] 10 RMC_ADD
          (handleRoleCheck .U32 (some scenarioGroup) [1] 10 RMC_REMOVE .new)) 1 = 0x3
    ∧ mapFind (handleRoleCheck .U32 (some scenarioGroup) [1] 10 RMC_ADD
          (handleRoleCheck .U32 (some scenarioGroup) [1] 10 RMC_REMOVE
            .new)).mMemberRoleChangeData 1
        = none :=
  C10_remove_then_add_scenario .U32 scenarioGroup .new 1 10 20 scenarioRoleA scenarioRoleB
    rfl rfl rfl (by decide) rfl rfl rfl

/-! ## Invariants of the reachable states -/

theorem foldl_iter_self (ty : CounterTy) (gd : LLGroupMgrGroupData) (r : LLUUID)
    (t : LLRoleMemberChangeType) (l : List LLUUID) (st : RoleCheckLoop) :
    (l.foldl (handleRoleCheckIter ty gd r t) st).self
      = l.foldl (handleRoleCheckMember ty (decide (gd.mOwnerRole = r)) r t) st.self := by
  induction l generalizing st with
  | nil => rfl
  | cons x xs ih =>
    simp only [List.foldl_cons]
    rw [ih]
    rfl

/-- What `handleRoleCheck` does to the fields: nothing when there is no group data or no
selection, otherwise the loop over the selection followed by the update of `mChanged`. -/
theorem handleRoleCheck_eq (ty : CounterTy) (gdatap : Option LLGroupMgrGroupData)
    (selection : List LLUUID) (r : LLUUID) (t : LLRoleMemberChangeType)
    (s : LLPanelGroupMembersSubTab) :
    handleRoleCheck ty gdatap selection r t s = s
    ∨ ∃ gd, gdatap = some gd ∧ selection ≠ [] ∧
        handleRoleCheck ty gdatap selection r t s
          = { selection.foldl (handleRoleCheckMember ty (decide (gd.mOwnerRole = r)) r t) s with
              mChanged := !(selection.foldl
                (handleRoleCheckMember ty (decide (gd.mOwnerRole = r)) r t)
                s).mMemberRoleChangeData.isEmpty } := by
  cases gdatap with
  | none => exact Or.inl rfl
  | some gd =>
    cases selection with
    | nil => exact Or.inl rfl
    | cons x xs =>
      refine Or.inr ⟨gd, rfl, by simp, ?_⟩
      simp only [handleRoleCheck, handleRoleCheckFull, List.isEmpty_cons, Bool.false_eq_true,
        if_false]
      rw [foldl_iter_self]

theorem member_inv (ty : CounterTy) (o : Bool) (r : LLUUID) (t : LLRoleMemberChangeType)
    (s : LLPanelGroupMembersSubTab) (m : LLUUID) (h : DataInv s.mMemberRoleChangeData) :
    DataInv (handleRoleCheckMember ty o r t s m).mMemberRoleChangeData := by
  have hwf := member_wf ty o r t s m h.1
  refine ⟨hwf, ?_⟩
  intro e he
  obtain ⟨k, v⟩ := e
  have hf := mapFind_of_mem _ k v hwf.1 he
  by_cases hk : k = m
  · subst hk
    rw [member_find_self] at hf
    unfold nonEmptyOpt at hf
    split at hf
    · simp at hf
    · rename_i hne
      simp only [Option.some.injEq] at hf
      intro hv
      apply hne
      rw [hf]
      simp only at hv
      rw [hv]
      rfl
  · rw [member_find_ne _ _ _ _ _ _ _ hk] at hf
    exact h.2 _ (mem_of_mapFind _ _ _ hf)

theorem foldl_member_inv (ty : CounterTy) (o : Bool) (r : LLUUID) (t : LLRoleMemberChangeType)
    (l : List LLUUID) (s : LLPanelGroupMembersSubTab) (h : DataInv s.mMemberRoleChangeData) :
    DataInv (l.foldl (handleRoleCheckMember ty o r t) s).mMemberRoleChangeData := by
  induction l generalizing s with
  | nil => exact h
  | cons x xs ih => exact ih _ (member_inv ty o r t s x h)

theorem dataInv_nil : DataInv [] := by
  refine ⟨⟨?_, ?_⟩, ?_⟩
  · simp [MapSorted]
  · intro e he
    simp at he
  · intro e he
    simp at he

theorem handleRoleCheck_inv (ty : CounterTy) (gdatap : Option LLGroupMgrGroupData)
    (selection : List LLUUID) (r : LLUUID) (t : LLRoleMemberChangeType)
    (s : LLPanelGroupMembersSubTab) (h : TrackerInv s) :
    TrackerInv (handleRoleCheck ty gdatap selection r t s) := by
  rcases handleRoleCheck_eq ty gdatap selection r t s with heq | ⟨gd, _, _, heq⟩
  · rw [heq]
    exact h
  · rw [heq]
    exact ⟨foldl_member_inv ty _ r t selection s h.1, rfl⟩

theorem cancel_inv (s : LLPanelGroupMembersSubTab) (h : TrackerInv s) :
    TrackerInv (cancel s) := by
  unfold cancel
  split
  · exact ⟨dataInv_nil, rfl⟩
  · exact h

theorem applyMemberChanges_inv (gdatap : Option LLGroupMgrGroupData)
    (s : LLPanelGroupMembersSubTab) (h : TrackerInv s) :
    TrackerInv (applyMemberChanges gdatap s).1 := by
  cases gdatap with
  | none => exact h
  | some gd => exact ⟨dataInv_nil, rfl⟩

theorem reachable_inv (ty : CounterTy) (s : LLPanelGroupMembersSubTab)
    (h : Reachable ty s) : TrackerInv s := by
  induction h with
  | new => exact ⟨dataInv_nil, rfl⟩
  | handleRoleCheck gdatap selection r t s _ ih => exact handleRoleCheck_inv _ _ _ _ _ _ ih
  | cancel s _ ih => exact cancel_inv _ ih
  | applyMemberChanges gdatap s _ ih => exact applyMemberChanges_inv _ _ ih
  | apply gdatap s _ ih =>
    cases gdatap with
    | none => exact ih
    | some gd =>
      simp only [apply]
      split
      · split
        · split
          · exact ⟨ih.1, ih.2⟩
          · exact ih
        · exact applyMemberChanges_inv _ _ ih
      · exact ih
  | addOwnerCB gdatap option s _ ih =>
    have hm : TrackerInv { s with mHasModal := false } := ⟨ih.1, ih.2⟩
    simp only [addOwnerCB]
    split
    · exact applyMemberChanges_inv _ _ hm
    · exact hm

theorem member_same_direction (ty : CounterTy) (o : Bool) (r : LLUUID)
    (d : LLRoleMemberChangeType) (s : LLPanelGroupMembersSubTab) (m : LLUUID)
    (h : getRoleChangeType s m r = some d) : handleRoleCheckMember ty o r d s m = s := by
  unfold getRoleChangeType at h
  cases hfind : mapFind s.mMemberRoleChangeData m with
  | none => simp [hfind] at h
  | some rc =>
    simp only [hfind] at h
    have hne := isEmpty_of_mapFind rc r d h
    unfold handleRoleCheckMember
    simp [hfind, h, hne]

theorem foldl_member_same_direction (ty : CounterTy) (o : Bool) (r : LLUUID)
    (d : LLRoleMemberChangeType) (s : LLPanelGroupMembersSubTab) (l : List LLUUID)
    (h : ∀ m ∈ l, getRoleChangeType s m r = some d) :
    l.foldl (handleRoleCheckMember ty o r d) s = s := by
  induction l with
  | nil => rfl
  | cons x xs ih =>
    simp only [List.foldl_cons]
    rw [member_same_direction ty o r d s x (h x (List.mem_cons_self _ _))]
    exact ih (fun m hm => h m (List.mem_cons_of_mem _ hm))

theorem foldl_member_find_of_not_mem (ty : CounterTy) (o : Bool) (r : LLUUID)
    (t : LLRoleMemberChangeType) (l : List LLUUID) (s : LLPanelGroupMembersSubTab)
    (M : LLUUID) (h : M ∉ l) :
    mapFind (l.foldl (handleRoleCheckMember ty o r t) s).mMemberRoleChangeData M
      = mapFind s.mMemberRoleChangeData M := by
  induction l generalizing s with
  | nil => rfl
  | cons x xs ih =>
    simp only [List.foldl_cons]
    rw [ih _ (fun hm => h (List.mem_cons_of_mem _ hm))]
    exact member_find_ne _ _ _ _ _ _ _ (fun hx => h (hx ▸ List.mem_cons_self _ _))

theorem toggleRole_last_intent (r : LLUUID) (d : LLRoleMemberChangeType) :
    nonEmptyOpt (toggleRole [(r, d)] r d.opposite) = none := by
  cases d <;>
    simp [toggleRole, mapFind, mapErase, nonEmptyOpt, LLRoleMemberChangeType.opposite]

/-- A selected member whose only pending intent is cancelled has no entry afterwards. -/
theorem last_intent_cancelled (ty : CounterTy) (gd : LLGroupMgrGroupData)
    (selection : List LLUUID) (s : LLPanelGroupMembersSubTab) (M r : LLUUID)
    (d : LLRoleMemberChangeType) (hfind : mapFind s.mMemberRoleChangeData M = some [(r, d)])
    (hM : M ∈ selection) (hnd : selection.Nodup) :
    mapFind (handleRoleCheck ty (some gd) selection r d.opposite s).mMemberRoleChangeData M
      = none := by
  rcases handleRoleCheck_eq ty (some gd) selection r d.opposite s with heq | ⟨gd2, hgd, _, heq⟩
  · exfalso
    cases selection with
    | nil => simp at hM
    | cons x xs =>
      rcases handleRoleCheck_eq ty (some gd) (x :: xs) r d.opposite s with _ | ⟨_, _, _, _⟩
      all_goals
        simp only [handleRoleCheck, handleRoleCheckFull, List.isEmpty_cons, Bool.false_eq_true,
          if_false] at heq
        rw [foldl_iter_self] at heq
        have hdata := congrArg LLPanelGroupMembersSubTab.mMemberRoleChangeData heq
        simp only at hdata
        obtain ⟨l1, l2, hsplit⟩ := List.append_of_mem hM
        rw [hsplit] at hnd hdata
        have hnot := (List.nodup_cons.mp (List.nodup_middle.mp hnd)).1
        have hM1 : M ∉ l1 := fun hc => hnot (List.mem_append_left _ hc)
        have hM2 : M ∉ l2 := fun hc => hnot (List.mem_append_right _ hc)
        have hlook := congrArg (fun data => mapFind data M) hdata
        simp only [List.foldl_append, List.foldl_cons] at hlook
        rw [foldl_member_find_of_not_mem _ _ _ _ _ _ _ hM2, member_find_self,
          foldl_member_find_of_not_mem _ _ _ _ _ _ _ hM1, hfind] at hlook
        simp only [Option.getD_some] at hlook
        rw [toggleRole_last_intent] at hlook
        simp at hlook
  · cases hgd
    rw [heq]
    simp only
    obtain ⟨l1, l2, hsplit⟩ := List.append_of_mem hM
    rw [hsplit] at hnd
    have hnot := (List.nodup_cons.mp (List.nodup_middle.mp hnd)).1
    have hM1 : M ∉ l1 := fun hc => hnot (List.mem_append_left _ hc)
    have hM2 : M ∉ l2 := fun hc => hnot (List.mem_append_right _ hc)
    rw [hsplit]
    simp only [List.foldl_append, List.foldl_cons]
    rw [foldl_member_find_of_not_mem _ _ _ _ _ _ _ hM2, member_find_self,
      foldl_member_find_of_not_mem _ _ _ _ _ _ _ hM1, hfind]
    simp only [Option.getD_some]
    exact toggleRole_last_intent r d

/-! ## Scenarios and invariants of the tracker -/

/-- C11. Scenario: from an empty pending set with `mNumOwnerAdditions = 0`,
`handleRoleCheck(OwnerRole, RMC_ADD)` with member M selected gives `mNumOwnerAdditions = 1`;
a following `handleRoleCheck(OwnerRole, RMC_REMOVE)` with M selected leaves no entry for M
(the pending set is empty again) and gives `mNumOwnerAdditions = 0`. -/
theorem C11_owner_add_then_remove_scenario (ty : CounterTy) (gd : LLGroupMgrGroupData)
    (s : LLPanelGroupMembersSubTab) (M : LLUUID)
    (hempty : s.mMemberRoleChangeData = []) (hzero : s.mNumOwnerAdditions = 0) :
    (handleRoleCheck ty (some gd) [M] gd.mOwnerRole RMC_ADD s).mNumOwnerAdditions = 1
    ∧ mapFind (handleRoleCheck ty (some gd) [M] gd.mOwnerRole RMC_REMOVE
        (handleRoleCheck ty (some gd) [M] gd.mOwnerRole RMC_ADD s)).mMemberRoleChangeData M
        = none
    ∧ (handleRoleCheck ty (some gd) [M] gd.mOwnerRole RMC_REMOVE
        (handleRoleCheck ty (some gd) [M] gd.mOwnerRole RMC_ADD s)).mMemberRoleChangeData = []
    ∧ (handleRoleCheck ty (some gd) [M] gd.mOwnerRole RMC_REMOVE
        (handleRoleCheck ty (some gd) [M] gd.mOwnerRole RMC_ADD s)).mNumOwnerAdditions
        = 0 := by
  cases ty <;>
    simp [handleRoleCheck, handleRoleCheckFull, handleRoleCheckIter, handleRoleCheckMember,
      mapFind, mapInsert, mapErase, hempty, hzero, CounterTy.incr, CounterTy.decr,
      CounterTy.wrap]

theorem C11_owner_add_then_remove_scenario_witness :
    (handleRoleCheck .U32 (some sampleGroup) [1] 9 RMC_ADD .new).mNumOwnerAdditions = 1
    ∧ mapFind (handleRoleCheck .U32 (some sampleGroup) [1] 9 RMC_REMOVE
        (handleRoleCheck .U32 (some sampleGroup) [1] 9 RMC_ADD .new)).mMemberRoleChangeData 1
        = none
    ∧ (handleRoleCheck .U32 (some sampleGroup) [1] 9 RMC_REMOVE
        (handleRoleCheck .U32 (some sampleGroup) [1] 9 RMC_ADD .new)).mMemberRoleChangeData = []
    ∧ (handleRoleCheck .U32 (some sampleGroup) [1] 9 RMC_REMOVE
        (handleRoleCheck .U32 (some sampleGroup) [1] 9 RMC_ADD .new)).mNumOwnerAdditions = 0 :=
  C11_owner_add_then_remove_scenario .U32 sampleGroup .new 1 rfl rfl

/-- C12. In every reachable state each member id that is a key of `mMemberRoleChangeData`
maps to a non-empty role-change map; and when the only pending intent of a selected member
is cancelled by `handleRoleCheck`, that call removes the member from
`mMemberRoleChangeData`. -/
theorem C12_no_empty_role_change_map (ty : CounterTy) (s : LLPanelGroupMembersSubTab)
    (hreach : Reachable ty s) :
    (∀ e ∈ s.mMemberRoleChangeData, e.2 ≠ [])
    ∧ (∀ m rc, mapFind s.mMemberRoleChangeData m = some rc → rc ≠ [])
    ∧ ∀ (gd : LLGroupMgrGroupData) (selection : List LLUUID) (M r : LLUUID)
        (d : LLRoleMemberChangeType),
        mapFind s.mMemberRoleChangeData M = some [(r, d)] → M ∈ selection → selection.Nodup →
        mapFind (handleRoleCheck ty (some gd) selection r d.opposite
          s).mMemberRoleChangeData M = none := by
  have hinv := reachable_inv ty s hreach
  refine ⟨hinv.1.2, ?_, ?_⟩
  · intro m rc hf
    exact hinv.1.2 _ (mem_of_mapFind _ _ _ hf)
  · intro gd selection M r d hfind hM hnd
    exact last_intent_cancelled ty gd selection s M r d hfind hM hnd

theorem C12_no_empty_role_change_map_witness :
    mapFind (handleRoleCheck .U32 (some sampleGroup) [1, 2] 9 RMC_REMOVE
      (handleRoleCheck .U32 (some sampleGroup) [1] 9 RMC_ADD
        .new)).mMemberRoleChangeData 1 = none :=
  (C12_no_empty_role_change_map .U32
    (handleRoleCheck .U32 (some sampleGroup) [1] 9 RMC_ADD .new)
    (Reachable.handleRoleCheck (some sampleGroup) [1] 9 RMC_ADD _ Reachable.new)).2.2
    sampleGroup [1, 2] 1 9 RMC_ADD (by decide) (by decide) (by decide)

/-- C13. In a reachable state, if every selected member already has a pending intent with
direction `d` for the role, `handleRoleCheck(role, d)` leaves every field unchanged, in
particular `mMemberRoleChangeData`, `mNumOwnerAdditions` and `mChanged`. -/
theorem C13_same_direction_changes_nothing (ty : CounterTy)
    (gdatap : Option LLGroupMgrGroupData) (selection : List LLUUID) (r : LLUUID)
    (d : LLRoleMemberChangeType) (s : LLPanelGroupMembersSubTab) (hreach : Reachable ty s)
    (hsel : ∀ m ∈ selection, getRoleChangeType s m r = some d) :
    handleRoleCheck ty gdatap selection r d s = s := by
  rcases handleRoleCheck_eq ty gdatap selection r d s with heq | ⟨gd, _, _, heq⟩
  · exact heq
  · rw [heq, foldl_member_same_direction ty _ r d s selection hsel]
    have hinv := (reachable_inv ty s hreach).2
    cases s with
    | mk data n changed modal =>
      simp only at hinv
      simp [hinv]

theorem C13_same_direction_changes_nothing_witness :
    handleRoleCheck .U32 (some sampleGroup) [1] 9 RMC_ADD
        (handleRoleCheck .U32 (some sampleGroup) [1] 9 RMC_ADD .new)
      = handleRoleCheck .U32 (some sampleGroup) [1] 9 RMC_ADD .new :=
  C13_same_direction_changes_nothing .U32 (some sampleGroup) [1] 9 RMC_ADD _
    (Reachable.handleRoleCheck (some sampleGroup) [1] 9 RMC_ADD _ Reachable.new)
    (by decide)

/-- C14. In every reachable state `needsApply` returns true exactly when
`mMemberRoleChangeData` is not empty; and a `handleRoleCheck` that cancels the only pending
intent leaves `needsApply` false. -/
theorem C14_needsApply_iff_pending (ty : CounterTy) (s : LLPanelGroupMembersSubTab)
    (hreach : Reachable ty s) :
    (needsApply s = true ↔ s.mMemberRoleChangeData ≠ [])
    ∧ ∀ (gd : LLGroupMgrGroupData) (M r : LLUUID) (d : LLRoleMemberChangeType),
        s.mMemberRoleChangeData = [(M, [(r, d)])] →
        needsApply (handleRoleCheck ty (some gd) [M] r d.opposite s) = false
          ∧ (handleRoleCheck ty (some gd) [M] r d.opposite s).mMemberRoleChangeData = [] := by
  have hinv := (reachable_inv ty s hreach).2
  constructor
  · unfold needsApply
    rw [hinv]
    cases s.mMemberRoleChangeData <;> simp
  · intro gd M r d hdata
    cases d <;>
      simp [needsApply, handleRoleCheck, handleRoleCheckFull, handleRoleCheckIter,
        handleRoleCheckMember, mapFind, mapInsert, mapErase, hdata,
        LLRoleMemberChangeType.opposite]

theorem C14_needsApply_iff_pending_witness :
    needsApply (handleRoleCheck .U32 (some sampleGroup) [1] 9 RMC_REMOVE
        (handleRoleCheck .U32 (some sampleGroup) [1] 9 RMC_ADD .new)) = false
    ∧ (handleRoleCheck .U32 (some sampleGroup) [1] 9 RMC_REMOVE
        (handleRoleCheck .U32 (some sampleGroup) [1] 9 RMC_ADD .new)).mMemberRoleChangeData
        = [] :=
  (C14_needsApply_iff_pending .U32
    (handleRoleCheck .U32 (some sampleGroup) [1] 9 RMC_ADD .new)
    (Reachable.handleRoleCheck (some sampleGroup) [1] 9 RMC_ADD _ Reachable.new)).2
    sampleGroup 1 9 RMC_ADD (by decide)

/-! ## Which entries a call inserts -/

theorem getRoleChangeType_eq (s : LLPanelGroupMembersSubTab) (m r : LLUUID) :
    getRoleChangeType s m r = mapFind ((mapFind s.mMemberRoleChangeData m).getD []) r := by
  unfold getRoleChangeType
  cases mapFind s.mMemberRoleChangeData m with
  | none => rfl
  | some rc => rfl

theorem getRoleChangeType_member (ty : CounterTy) (o : Bool) (r : LLUUID)
    (t : LLRoleMemberChangeType) (s : LLPanelGroupMembersSubTab) (m m2 r2 : LLUUID) :
    getRoleChangeType (handleRoleCheckMember ty o r t s m) m2 r2
      = if m2 = m ∧ r2 = r then toggleIntent (getRoleChangeType s m2 r2) t
        else getRoleChangeType s m2 r2 := by
  rw [getRoleChangeType_eq, getRoleChangeType_eq]
  by_cases hm : m2 = m
  · subst hm
    rw [member_find_self, getD_nonEmptyOpt]
    by_cases hr : r2 = r
    · subst hr
      simp [mapFind_toggleRole_self]
    · simp [hr, mapFind_toggleRole_ne _ _ _ _ hr]
  · rw [member_find_ne _ _ _ _ _ _ _ hm]
    simp [hm]

/-- An intent found after the loop of `handleRoleCheck` was there before, or is the intent of
the call for a selected member. -/
theorem foldl_member_inserted (ty : CounterTy) (o : Bool) (r : LLUUID)
    (t : LLRoleMemberChangeType) (l : List LLUUID) (s : LLPanelGroupMembersSubTab)
    (m2 r2 : LLUUID) (t2 : LLRoleMemberChangeType)
    (h : getRoleChangeType (l.foldl (handleRoleCheckMember ty o r t) s) m2 r2 = some t2) :
    getRoleChangeType s m2 r2 = some t2 ∨ (m2 ∈ l ∧ r2 = r ∧ t2 = t) := by
  induction l generalizing s with
  | nil => exact Or.inl h
  | cons x xs ih =>
    simp only [List.foldl_cons] at h
    rcases ih _ h with h1 | ⟨hm, hr, ht⟩
    · rw [getRoleChangeType_member] at h1
      split at h1
      · rename_i hc
        obtain ⟨hmx, hrr⟩ := hc
        cases hprev : getRoleChangeType s m2 r2 with
        | none =>
          rw [hprev] at h1
          simp only [toggleIntent, Option.some.injEq] at h1
          exact Or.inr ⟨hmx ▸ List.mem_cons_self _ _, hrr, h1.symm⟩
        | some previous =>
          rw [hprev] at h1
          simp only [toggleIntent] at h1
          split at h1
          · exact Or.inl h1
          · simp at h1
      · exact Or.inl h1
    · exact Or.inr ⟨List.mem_cons_of_mem _ hm, hr, ht⟩

theorem handleRoleCheck_inserted (ty : CounterTy) (gdatap : Option LLGroupMgrGroupData)
    (selection : List LLUUID) (role_id : LLUUID) (type : LLRoleMemberChangeType)
    (s : LLPanelGroupMembersSubTab) (m r : LLUUID) (t : LLRoleMemberChangeType)
    (hafter : getRoleChangeType (handleRoleCheck ty gdatap selection role_id type s) m r
      = some t)
    (hbefore : getRoleChangeType s m r ≠ some t) :
    m ∈ selection ∧ r = role_id ∧ t = type := by
  rcases handleRoleCheck_eq ty gdatap selection role_id type s with heq | ⟨gd, _, _, heq⟩
  · rw [heq] at hafter
    exact absurd hafter hbefore
  · rw [heq] at hafter
    have h2 : getRoleChangeType
        (selection.foldl (handleRoleCheckMember ty (decide (gd.mOwnerRole = role_id)) role_id
          type) s) m r = some t := hafter
    rcases foldl_member_inserted ty _ role_id type selection s m r t h2 with h3 | h3
    · exact absurd h3 hbefore
    · exact h3

/-- C15, the code on a selection whose members differ in holding the role. With members `1`
(who holds role `10`) and `2` (who does not) selected and no pending change,
`handleRoleCheck(10, RMC_REMOVE)` creates an `RMC_REMOVE` entry for member `2`, who does
not hold the role, and `handleRoleCheck(10, RMC_ADD)` creates an `RMC_ADD` entry for member
`1`, who holds it: entries that do not differ from the committed state. -/
theorem C15_entry_equal_to_committed_state :
    getRoleChangeType LLPanelGroupMembersSubTab.new 1 10 = none
    ∧ getRoleChangeType
        (handleRoleCheck .U32 (some mixedGroup) [1, 2] 10 RMC_ADD .new) 1 10 = some RMC_ADD
    ∧ holdsRole mixedGroup 1 10 = true
    ∧ getRoleChangeType LLPanelGroupMembersSubTab.new 2 10 = none
    ∧ getRoleChangeType
        (handleRoleCheck .U32 (some mixedGroup) [1, 2] 10 RMC_REMOVE .new) 2 10
        = some RMC_REMOVE
    ∧ holdsRole mixedGroup 2 10 = false := by
  decide

/-! ## The mask of the powers all selected members have -/

/-- C16, the code on a member whose mask has bit 51 set. With member `1` selected, the
effective mask of the member, and so the AND over the selection, is `0x8000000000000`, but
`allowed_by_all` of `handleMemberSelect` and `powers_all_have` of `handleRoleCheck` are 0:
both start from `0xffffffffffff`, which has the 48 low bits only. -/
theorem C16_mask_of_all_drops_high_bits :
    getAgentPowersBasedOnRoleChanges (some highBitGroup) .new 1 = 0x8000000000000
    ∧ andAll ([1].map (getAgentPowersBasedOnRoleChanges (some highBitGroup) .new))
        = 0x8000000000000
    ∧ handleMemberSelectPowers (some highBitGroup) [1] .new = some (0, 0x8000000000000)
    ∧ getAgentPowersBasedOnRoleChanges (some highBitGroup)
        (handleRoleCheck .U32 (some highBitGroup) [1] 20 RMC_ADD .new) 1 = 0x8000000000000
    ∧ (handleRoleCheckFull .U32 (some highBitGroup) [1] 20 RMC_ADD .new).powers_all_have = 0
    ∧ (handleRoleCheckFull .U32 (some highBitGroup) [1] 20 RMC_ADD .new).powers_some_have
        = 0x8000000000000 := by
  decide

/-! ## The search filter -/

theorem char_toLower_idem (c : Char) : c.toLower.toLower = c.toLower := by
  by_cases h : c.toNat ≥ 65 ∧ c.toNat ≤ 90
  · have hc : c = Char.ofNat c.toNat := (Char.ofNat_toNat c).symm
    obtain ⟨h1, h2⟩ := h
    generalize c.toNat = n at hc h1 h2
    subst hc
    interval_cases n <;> decide
  · have hc : c.toLower = c := by
      simp only [Char.toLower]
      rw [if_neg h]
    rw [hc, hc]

theorem toLower_idem (s : StdString) : toLower (toLower s) = toLower s := by
  unfold toLower
  rw [List.map_map]
  apply List.map_congr_left
  intro c _
  exact char_toLower_idem c

theorem toLower_eq_nil (s : StdString) : toLower s = [] ↔ s = [] := by
  unfold toLower
  exact List.map_eq_nil_iff

theorem startsWith_iff (s needle : StdString) :
    startsWith s needle = true ↔ ∃ after, s = needle ++ after := by
  induction needle generalizing s with
  | nil =>
    cases s <;> simp [startsWith]
  | cons n ns ih =>
    cases s with
    | nil => simp [startsWith]
    | cons c cs =>
      simp only [startsWith, Bool.and_eq_true, beq_iff_eq, ih, List.cons_append,
        List.cons.injEq]
      constructor
      · rintro ⟨hc, after, hcs⟩
        exact ⟨after, hc, hcs⟩
      · rintro ⟨after, hc, hcs⟩
        exact ⟨hc, after, hcs⟩

theorem occurs_nil_iff (needle : StdString) : Occurs needle [] ↔ needle = [] := by
  unfold Occurs
  constructor
  · rintro ⟨before, after, h⟩
    have h2 := List.append_eq_nil.mp h.symm
    exact (List.append_eq_nil.mp h2.1).2
  · intro h
    exact ⟨[], [], by simp [h]⟩

theorem occurs_cons_iff (needle : StdString) (c : Char) (cs : StdString) :
    Occurs needle (c :: cs) ↔ startsWith (c :: cs) needle = true ∨ Occurs needle cs := by
  rw [startsWith_iff]
  unfold Occurs
  constructor
  · rintro ⟨before, after, h⟩
    cases before with
    | nil => exact Or.inl ⟨after, by simpa using h⟩
    | cons b bs =>
      simp only [List.cons_append, List.cons.injEq] at h
      exact Or.inr ⟨bs, after, h.2⟩
  · rintro (⟨after, h⟩ | ⟨before, after, h⟩)
    · exact ⟨[], after, by simpa using h⟩
    · exact ⟨c :: before, after, by simp [h]⟩

/-- `std::string::find` finds the needle exactly when it occurs as a contiguous substring. -/
theorem stringFind_ne_none_iff (s needle : StdString) :
    stringFind s needle ≠ none ↔ Occurs needle s := by
  induction s with
  | nil =>
    rw [occurs_nil_iff]
    cases needle <;> simp [stringFind]
  | cons c cs ih =>
    rw [occurs_cons_iff]
    simp only [stringFind]
    by_cases hs : startsWith (c :: cs) needle = true
    · simp [hs]
    · simp only [hs, if_false, false_or, Bool.false_eq_true]
      rw [← ih]
      cases stringFind cs needle <;> simp

theorem setSearchFilter_filter (f : StdString) (self : LLPanelGroupSubTab)
    (hlower : toLower self.mSearchFilter = self.mSearchFilter) :
    (setSearchFilter f self).mSearchFilter = toLower f := by
  unfold setSearchFilter
  split
  · rename_i heq
    rw [← heq, hlower]
  · rfl

theorem found_iff_occurs (filter label : StdString) :
    (match stringFind label filter with
      | none => false
      | some _ => true) = true ↔ Occurs filter label := by
  rw [← stringFind_ne_none_iff]
  cases stringFind label filter <;> simp

/-- C17. After `setSearchFilter(f)` (on a sub-tab whose stored filter is lower-cased, as
every stored filter is), each matcher returns true exactly when `f` is empty or the
lower-cased `f` occurs as a contiguous substring of the lower-cased label; the roles
matcher does so for the name or the title. The stored filter is lower-cased again. -/
theorem C17_matchers_are_lowercase_substring_tests (self : LLPanelGroupSubTab)
    (f label name title : StdString)
    (hlower : toLower self.mSearchFilter = self.mSearchFilter) :
    (matchesActionSearchFilter (setSearchFilter f self) label = true
        ↔ f = [] ∨ Occurs (toLower f) (toLower label))
    ∧ (LLPanelGroupMembersSubTab.matchesSearchFilter (setSearchFilter f self) name = true
        ↔ f = [] ∨ Occurs (toLower f) (toLower name))
    ∧ (LLPanelGroupRolesSubTab.matchesSearchFilter (setSearchFilter f self) name title = true
        ↔ f = [] ∨ Occurs (toLower f) (toLower name) ∨ Occurs (toLower f) (toLower title))
    ∧ toLower (setSearchFilter f self).mSearchFilter
        = (setSearchFilter f self).mSearchFilter := by
  have hf := setSearchFilter_filter f self hlower
  refine ⟨?_, ?_, ?_, ?_⟩
  · unfold matchesActionSearchFilter
    rw [hf]
    by_cases he : f = []
    · simp [he, toLower]
    · have hne : (toLower f).isEmpty = false := by
        cases hl : toLower f with
        | nil => exact absurd ((toLower_eq_nil f).mp hl) he
        | cons c cs => rfl
      simp only [hne, Bool.false_eq_true, if_false, he, false_or]
      exact found_iff_occurs _ _
  · unfold LLPanelGroupMembersSubTab.matchesSearchFilter
    rw [hf]
    by_cases he : f = []
    · simp [he, toLower]
    · have hne : (toLower f).isEmpty = false := by
        cases hl : toLower f with
        | nil => exact absurd ((toLower_eq_nil f).mp hl) he
        | cons c cs => rfl
      simp only [hne, Bool.false_eq_true, if_false, he, false_or]
      exact found_iff_occurs _ _
  · unfold LLPanelGroupRolesSubTab.matchesSearchFilter
    rw [hf]
    by_cases he : f = []
    · simp [he, toLower]
    · have hne : (toLower f).isEmpty = false := by
        cases hl : toLower f with
        | nil => exact absurd ((toLower_eq_nil f).mp hl) he
        | cons c cs => rfl
      simp only [hne, Bool.false_eq_true, if_false, he, false_or]
      rw [← stringFind_ne_none_iff, ← stringFind_ne_none_iff]
      by_cases h1 : stringFind (toLower name) (toLower f) = none
      · by_cases h2 : stringFind (toLower title) (toLower f) = none
        · simp [h1, h2]
        · simp [h1, h2]
      · simp [h1]
  · rw [hf]
    exact toLower_idem f

theorem C17_matchers_are_lowercase_substring_tests_witness :
    matchesActionSearchFilter (setSearchFilter ['a', 'b', 'c'] .new)
        ['A', 'B', 'C', 'd', 'e', 'f'] = true
    ∧ matchesActionSearchFilter (setSearchFilter [] .new) ['A', 'B', 'C', 'd', 'e', 'f']
        = true :=
  ⟨(C17_matchers_are_lowercase_substring_tests .new ['a', 'b', 'c']
      ['A', 'B', 'C', 'd', 'e', 'f'] [] [] rfl).1.mpr
      (Or.inr ⟨[], ['d', 'e', 'f'], by decide⟩),
   by decide⟩

/-! ## The group chat listener -/

theorem sendGroupIM_not_member {α : Type} [LinearOrder α] [One α] [Add α] (env : ChatEnv)
    (cur_time : α) (data : ChatRequest) (self : LLGroupChatListener α)
    (hnot : env.isInGroup data.group_id = false) :
    sendGroupIM env cur_time data self = (self, [ChatEffect.errorNotMember data.group_id]) := by
  simp [sendGroupIM, is_in_group, hnot]

theorem sendGroupIM_throttled {α : Type} [LinearOrder α] [One α] [Add α] (env : ChatEnv)
    (cur_time : α) (data : ChatRequest) (self : LLGroupChatListener α)
    (hmember : env.isInGroup data.group_id = true)
    (hlt : cur_time < self.mLastThrottleTime + GROUP_CHAT_THROTTLE_PERIOD) :
    sendGroupIM env cur_time data self = (self, []) := by
  simp [sendGroupIM, is_in_group, hmember, hlt]

theorem sendGroupIM_delivered {α : Type} [LinearOrder α] [One α] [Add α] (env : ChatEnv)
    (cur_time : α) (data : ChatRequest) (self : LLGroupChatListener α)
    (hmember : env.isInGroup data.group_id = true)
    (hge : self.mLastThrottleTime + GROUP_CHAT_THROTTLE_PERIOD ≤ cur_time) :
    sendGroupIM env cur_time data self
      = ({ mLastThrottleTime := cur_time },
         [ChatEffect.sendMessage (env.LUA_PREFIX ++ data.message)
           (env.computeSessionID data.group_id) data.group_id]) := by
  simp [sendGroupIM, is_in_group, hmember, not_lt.mpr hge]

theorem sendGroupIM_cases {α : Type} [LinearOrder α] [One α] [Add α] (env : ChatEnv)
    (cur_time : α) (data : ChatRequest) (self : LLGroupChatListener α) :
    (delivered (sendGroupIM env cur_time data self) = true
      ∧ (sendGroupIM env cur_time data self).1.mLastThrottleTime = cur_time)
    ∨ (delivered (sendGroupIM env cur_time data self) = false
      ∧ (sendGroupIM env cur_time data self).1 = self) := by
  cases hm : env.isInGroup data.group_id with
  | false =>
    rw [sendGroupIM_not_member env cur_time data self hm]
    exact Or.inr ⟨rfl, rfl⟩
  | true =>
    by_cases hlt : cur_time < self.mLastThrottleTime + GROUP_CHAT_THROTTLE_PERIOD
    · rw [sendGroupIM_throttled env cur_time data self hm hlt]
      exact Or.inr ⟨rfl, rfl⟩
    · rw [sendGroupIM_delivered env cur_time data self hm (not_lt.mp hlt)]
      exact Or.inl ⟨rfl, rfl⟩

/-- After a run of calls the stored time is the time of the most recent delivered call, or
the time stored before the run when no call delivered. -/
theorem sendAll_last {α : Type} [LinearOrder α] [One α] [Add α] (env : ChatEnv)
    (calls : List (α × ChatRequest)) (self : LLGroupChatListener α) :
    (sendAll env calls self).mLastThrottleTime
      = (lastDelivered env calls self).getD self.mLastThrottleTime := by
  induction calls generalizing self with
  | nil => rfl
  | cons c rest ih =>
    have hstep : sendAll env (c :: rest) self
        = sendAll env rest (sendGroupIM env c.1 c.2 self).1 := rfl
    rw [hstep, ih]
    simp only [lastDelivered]
    cases hrest : lastDelivered env rest (sendGroupIM env c.1 c.2 self).1 with
    | some L => rfl
    | none =>
      rcases sendGroupIM_cases env c.1 c.2 self with ⟨hd, hl⟩ | ⟨hd, hl⟩
      · simp [hd, hl]
      · simp [hd, hl]

/-- C18. When the caller is not a member of `data["group_id"]`, each of `startGroupChat`,
`leaveGroupChat` and `sendGroupIM` puts an error on its response, makes none of the calls
`startIM`, `endIM`, `sendMessage`, and leaves `mLastThrottleTime` as it was. -/
theorem C18_non_member_is_refused {α : Type} [LinearOrder α] [One α] [Add α] (env : ChatEnv)
    (cur_time : α) (data : ChatRequest) (self : LLGroupChatListener α)
    (hnot : env.isInGroup data.group_id = false) :
    ((startGroupChat env data self).1 = self
      ∧ (startGroupChat env data self).2.any ChatEffect.isError = true
      ∧ (startGroupChat env data self).2.any ChatEffect.isDownstream = false)
    ∧ ((leaveGroupChat env data self).1 = self
      ∧ (leaveGroupChat env data self).2.any ChatEffect.isError = true
      ∧ (leaveGroupChat env data self).2.any ChatEffect.isDownstream = false)
    ∧ ((sendGroupIM env cur_time data self).1 = self
      ∧ (sendGroupIM env cur_time data self).2.any ChatEffect.isError = true
      ∧ (sendGroupIM env cur_time data self).2.any ChatEffect.isDownstream = false) := by
  have h1 : startGroupChat env data self
      = (self, [ChatEffect.errorNotMember data.group_id]) := by
    simp [startGroupChat, is_in_group, hnot]
  have h2 : leaveGroupChat env data self
      = (self, [ChatEffect.errorNotMember data.group_id]) := by
    simp [leaveGroupChat, is_in_group, hnot]
  rw [h1, h2, sendGroupIM_not_member env cur_time data self hnot]
  simp [ChatEffect.isError, ChatEffect.isDownstream]

theorem C18_non_member_is_refused_witness :
    startGroupChat sampleChatEnv ⟨8, "hello"⟩ (⟨5⟩ : LLGroupChatListener Nat)
        = (⟨5⟩, [ChatEffect.errorNotMember 8])
    ∧ ((sendGroupIM sampleChatEnv (100 : Nat) ⟨8, "hello"⟩ ⟨5⟩).1 = ⟨5⟩
      ∧ (sendGroupIM sampleChatEnv (100 : Nat) ⟨8, "hello"⟩ ⟨5⟩).2.any ChatEffect.isError
          = true
      ∧ (sendGroupIM sampleChatEnv (100 : Nat) ⟨8, "hello"⟩ ⟨5⟩).2.any
          ChatEffect.isDownstream = false) :=
  ⟨by decide,
   (C18_non_member_is_refused sampleChatEnv (100 : Nat) ⟨8, "hello"⟩ ⟨5⟩ (by decide)).2.2⟩

/-- C19. Let the most recent delivered `sendGroupIM` of a listener have happened at time
`L`. A further `sendGroupIM` by a group member at time `t` delivers its message exactly when
`t ≥ L + 1`, whatever groups the calls address. A throttled call makes no call, reports no
error and leaves `mLastThrottleTime` at `L`; a delivered call sets `mLastThrottleTime` to
`t` and makes the one call `sendMessage(LUA_PREFIX + message, session id, group id)`. -/
theorem C19_throttle_window {α : Type} [LinearOrder α] [One α] [Add α] (env : ChatEnv)
    (calls : List (α × ChatRequest)) (s0 : LLGroupChatListener α) (L t : α)
    (data : ChatRequest) (hlast : lastDelivered env calls s0 = some L)
    (hmember : env.isInGroup data.group_id = true) :
    (sendAll env calls s0).mLastThrottleTime = L
    ∧ (delivered (sendGroupIM env t data (sendAll env calls s0)) = true
        ↔ L + GROUP_CHAT_THROTTLE_PERIOD ≤ t)
    ∧ (t < L + GROUP_CHAT_THROTTLE_PERIOD →
        sendGroupIM env t data (sendAll env calls s0) = (sendAll env calls s0, []))
    ∧ (L + GROUP_CHAT_THROTTLE_PERIOD ≤ t →
        sendGroupIM env t data (sendAll env calls s0)
          = ({ mLastThrottleTime := t },
             [ChatEffect.sendMessage (env.LUA_PREFIX ++ data.message)
               (env.computeSessionID data.group_id) data.group_id])) := by
  have hL : (sendAll env calls s0).mLastThrottleTime = L := by
    rw [sendAll_last, hlast]
    rfl
  refine ⟨hL, ?_, ?_, ?_⟩
  · by_cases hlt : t < L + GROUP_CHAT_THROTTLE_PERIOD
    · rw [sendGroupIM_throttled env t data _ hmember (by rw [hL]; exact hlt)]
      simp [delivered, hlt]
    · rw [sendGroupIM_delivered env t data _ hmember (by rw [hL]; exact not_lt.mp hlt)]
      simp [delivered, not_lt.mp hlt]
  · intro hlt
    exact sendGroupIM_throttled env t data _ hmember (by rw [hL]; exact hlt)
  · intro hge
    exact sendGroupIM_delivered env t data _ hmember (by rw [hL]; exact hge)

theorem C19_throttle_window_witness :
    (sendAll sampleChatEnv [((10 : Nat), ⟨7, "one"⟩), (10, ⟨7, "two"⟩)]
        LLGroupChatListener.new).mLastThrottleTime = 10
    ∧ (delivered (sendGroupIM sampleChatEnv 11 ⟨7, "three"⟩
          (sendAll sampleChatEnv [((10 : Nat), ⟨7, "one"⟩), (10, ⟨7, "two"⟩)]
            LLGroupChatListener.new)) = true
        ↔ 10 + GROUP_CHAT_THROTTLE_PERIOD ≤ 11)
    ∧ sendGroupIM sampleChatEnv 11 ⟨7, "three"⟩
          (sendAll sampleChatEnv [((10 : Nat), ⟨7, "one"⟩), (10, ⟨7, "two"⟩)]
            LLGroupChatListener.new)
        = ({ mLastThrottleTime := 11 }, [ChatEffect.sendMessage "[LUA] three" 107 7]) :=
  ⟨(C19_throttle_window sampleChatEnv [((10 : Nat), ⟨7, "one"⟩), (10, ⟨7, "two"⟩)]
      LLGroupChatListener.new 10 11 ⟨7, "three"⟩ (by decide) (by decide)).1,
   (C19_throttle_window sampleChatEnv [((10 : Nat), ⟨7, "one"⟩), (10, ⟨7, "two"⟩)]
      LLGroupChatListener.new 10 11 ⟨7, "three"⟩ (by decide) (by decide)).2.1,
   (C19_throttle_window sampleChatEnv [((10 : Nat), ⟨7, "one"⟩), (10, ⟨7, "two"⟩)]
      LLGroupChatListener.new 10 11 ⟨7, "three"⟩ (by decide) (by decide)).2.2.2
      (by decide)⟩

/-- C20, the code on a freshly constructed listener. A `sendGroupIM` by a group member at
the elapsed-time reading 0 is dropped by the throttle (no call, no error, the field
unchanged) although the listener has accepted no send before. -/
theorem C20_first_send_dropped :
    lastDelivered sampleChatEnv ([] : List (Nat × ChatRequest)) LLGroupChatListener.new = none
    ∧ sampleChatEnv.isInGroup 7 = true
    ∧ sendGroupIM sampleChatEnv (0 : Nat) ⟨7, "hello"⟩ LLGroupChatListener.new
        = (LLGroupChatListener.new, []) := by
  decide

/-- C20, amended. A `sendGroupIM` by a group member is dropped by the throttle exactly when
the time reading is less than 1 second after the most recent delivered send of the same
listener instance or, when the listener has delivered no send yet, less than 1 second after
time 0. So the first send on a freshly constructed listener is delivered exactly when the
time reading is at least `0 + 1`. -/
theorem C20_throttle_only_within_window {α : Type} [LinearOrder α] [Zero α] [One α] [Add α]
    (env : ChatEnv) (calls : List (α × ChatRequest)) (t : α) (data : ChatRequest)
    (hmember : env.isInGroup data.group_id = true) :
    (delivered (sendGroupIM env t data (sendAll env calls LLGroupChatListener.new)) = false
        ↔ (∃ L, lastDelivered env calls LLGroupChatListener.new = some L
              ∧ t < L + GROUP_CHAT_THROTTLE_PERIOD)
          ∨ (lastDelivered env calls LLGroupChatListener.new = none
              ∧ t < 0 + GROUP_CHAT_THROTTLE_PERIOD))
    ∧ (delivered (sendGroupIM env t data LLGroupChatListener.new) = true
        ↔ (0 : α) + GROUP_CHAT_THROTTLE_PERIOD ≤ t) := by
  have hdrop : ∀ s : LLGroupChatListener α,
      (delivered (sendGroupIM env t data s) = false
        ↔ t < s.mLastThrottleTime + GROUP_CHAT_THROTTLE_PERIOD) := by
    intro s
    by_cases hlt : t < s.mLastThrottleTime + GROUP_CHAT_THROTTLE_PERIOD
    · rw [sendGroupIM_throttled env t data _ hmember hlt]
      simp [delivered, hlt]
    · rw [sendGroupIM_delivered env t data _ hmember (not_lt.mp hlt)]
      simp [delivered, hlt]
  constructor
  · rw [hdrop, sendAll_last]
    cases hl : lastDelivered env calls LLGroupChatListener.new with
    | none => simp [LLGroupChatListener.new]
    | some L => simp
  · have h : (delivered (sendGroupIM env t data LLGroupChatListener.new) = false
        ↔ t < (0 : α) + GROUP_CHAT_THROTTLE_PERIOD) := hdrop LLGroupChatListener.new
    rw [← not_lt, ← h]
    cases delivered (sendGroupIM env t data LLGroupChatListener.new) <;> simp

theorem C20_throttle_only_within_window_witness :
    delivered (sendGroupIM sampleChatEnv (1 : Nat) ⟨7, "hello"⟩ LLGroupChatListener.new)
      = true :=
  (C20_throttle_only_within_window sampleChatEnv [] (1 : Nat) ⟨7, "hello"⟩
    (by decide)).2.mpr (by decide)

/-! ## The tab switch of the panel -/

theorem tabNeedsApply_congr (env : PanelEnv) (s1 s2 : LLPanelGroupRoles) (tab : TabId)
    (h : s1.membersTab = s2.membersTab) : tabNeedsApply env s1 tab = tabNeedsApply env s2 tab := by
  cases tab with
  | members => simp [tabNeedsApply, h]
  | other n => rfl

/-- C21. With no tab request outstanding: when the current sub-tab reports `needsApply`,
`handleSubTabSwitch` returns false, raises `PanelGroupApply` and makes no `deactivate` or
`activate` call; `mCurrentTab` is unchanged, and while the request stays recorded every
further `handleSubTabSwitch` is rejected without any effect. When the current sub-tab does
not report `needsApply` (or there is none), it returns true and the requested tab becomes
the current tab. -/
theorem C21_tab_switch_waits_for_the_answer (env : PanelEnv) (panel_name : String)
    (self : LLPanelGroupRoles) (hreq : self.mRequestedTab = none) :
    (∀ cur, self.mCurrentTab = some cur → tabNeedsApply env self cur = true →
        (handleSubTabSwitch env panel_name self).ok = false
        ∧ (handleSubTabSwitch env panel_name self).effects
            = [PanelEffect.notification "PanelGroupApply"]
        ∧ (handleSubTabSwitch env panel_name self).self.mCurrentTab = some cur
        ∧ (handleSubTabSwitch env panel_name self).self.mRequestedTab
            = env.getPanelByName panel_name
        ∧ (handleSubTabSwitch env panel_name self).self.membersTab = self.membersTab
        ∧ (env.getPanelByName panel_name ≠ none → ∀ env2 name2,
            handleSubTabSwitch env2 name2 (handleSubTabSwitch env panel_name self).self
              = { ok := false, self := (handleSubTabSwitch env panel_name self).self,
                  effects := [], mesg := "" }))
    ∧ ((∀ cur, self.mCurrentTab = some cur → tabNeedsApply env self cur = false) →
        ∀ req, env.getPanelByName panel_name = some req →
        (handleSubTabSwitch env panel_name self).ok = true
        ∧ (handleSubTabSwitch env panel_name self).self.mCurrentTab = some req
        ∧ (handleSubTabSwitch env panel_name self).self.mRequestedTab = none
        ∧ (handleSubTabSwitch env panel_name self).effects
            = (match self.mCurrentTab with
                | some cur => [PanelEffect.deactivate cur]
                | none => []) ++ [PanelEffect.activate req]) := by
  constructor
  · intro cur hcur hneeds
    have hres : handleSubTabSwitch env panel_name self
        = { ok := false,
            self := { self with mRequestedTab := env.getPanelByName panel_name,
                                mHasModal := true },
            effects := [PanelEffect.notification "PanelGroupApply"], mesg := "" } := by
      cases cur with
      | members =>
        simp only [tabNeedsApply] at hneeds
        simp [handleSubTabSwitch, hreq, hcur, tabNeedsApply, hneeds]
      | other n =>
        simp only [tabNeedsApply] at hneeds
        simp [handleSubTabSwitch, hreq, hcur, tabNeedsApply, hneeds]
    rw [hres]
    refine ⟨rfl, rfl, hcur, rfl, rfl, ?_⟩
    intro hfound env2 name2
    simp [handleSubTabSwitch, hfound]
  · intro hclean req hfound
    cases hcur : self.mCurrentTab with
    | none =>
      simp [handleSubTabSwitch, hreq, hcur, hfound, transitionToTab]
    | some cur =>
      have hneeds := hclean cur hcur
      cases cur with
      | members =>
        simp only [tabNeedsApply] at hneeds
        simp [handleSubTabSwitch, hreq, hcur, hfound, transitionToTab, tabNeedsApply, hneeds]
      | other n =>
        simp only [tabNeedsApply] at hneeds
        simp [handleSubTabSwitch, hreq, hcur, hfound, transitionToTab, tabNeedsApply, hneeds]

theorem C21_tab_switch_waits_for_the_answer_witness :
    (handleSubTabSwitch samplePanelEnv "roles_sub_tab"
        (panelShowingMembers
          (handleRoleCheck .U32 (some sampleGroup) [2] 9 RMC_ADD .new))).ok = false
    ∧ (handleSubTabSwitch samplePanelEnv "roles_sub_tab"
        (panelShowingMembers
          (handleRoleCheck .U32 (some sampleGroup) [2] 9 RMC_ADD .new))).effects
        = [PanelEffect.notification "PanelGroupApply"]
    ∧ (handleSubTabSwitch samplePanelEnv "roles_sub_tab"
        (panelShowingMembers
          (handleRoleCheck .U32 (some sampleGroup) [2] 9 RMC_ADD .new))).self.mCurrentTab
        = some TabId.members :=
  have h := (C21_tab_switch_waits_for_the_answer samplePanelEnv "roles_sub_tab"
    (panelShowingMembers (handleRoleCheck .U32 (some sampleGroup) [2] 9 RMC_ADD .new))
    rfl).1 TabId.members rfl (by decide)
  ⟨h.1, h.2.1, h.2.2.1⟩

/-- C30, the code when `apply` fails. The members sub-tab shows with a pending entry, the
tab "roles_sub_tab" is requested, the group data has gone, and the answer to the prompt is
option 0. `apply` fails, `handleNotifyCallback` raises `GenericAlert` and skips the
transition, and `mRequestedTab` keeps the request: a later `handleSubTabSwitch` is rejected
by its first test, without any effect. -/
theorem C30_request_left_after_failed_apply :
    (handleNotifyCallback noGroupPanelEnv 0
        (panelWithRequest (handleRoleCheck .U32 (some sampleGroup) [2] 10 RMC_ADD
          .new))).1.mRequestedTab = some (TabId.other 1)
    ∧ (handleNotifyCallback noGroupPanelEnv 0
        (panelWithRequest (handleRoleCheck .U32 (some sampleGroup) [2] 10 RMC_ADD .new))).2
      = [PanelEffect.notification "GenericAlert"]
    ∧ handleSubTabSwitch samplePanelEnv "roles_sub_tab"
        (handleNotifyCallback noGroupPanelEnv 0
          (panelWithRequest (handleRoleCheck .U32 (some sampleGroup) [2] 10 RMC_ADD .new))).1
      = { ok := false,
          self := (handleNotifyCallback noGroupPanelEnv 0
            (panelWithRequest (handleRoleCheck .U32 (some sampleGroup) [2] 10 RMC_ADD
              .new))).1,
          effects := [], mesg := "" }
    ∧ (handleNotifyCallback samplePanelEnv 2
        (panelWithRequest (handleRoleCheck .U32 (some sampleGroup) [2] 10 RMC_ADD
          .new))).1.mRequestedTab = none := by
  decide

/-! ## Deleting a role and checking a dangerous action -/

theorem getFirstSelected_index (self : LLPanelGroupRolesSubTab) (role_id : LLUUID)
    (h : self.getFirstSelected = some role_id) : ∃ index, self.mRolesSelected = some index := by
  unfold LLPanelGroupRolesSubTab.getFirstSelected at h
  cases hsel : self.mRolesSelected with
  | none => simp [hsel] at h
  | some index => exact ⟨index, rfl⟩

/-- C23. With group data present, `handleDeleteRole` on a selected Owner or Everyone (null
id) role only raises an alert: no `deleteRole` call, the role list and every field
unchanged; without group data it does nothing at all. For every other selected role it makes
exactly one call, `deleteRole` with that role's id. And `handleRoleSelect` never hands
`true` to the delete button when the selected role is the Owner or the Everyone role. -/
theorem C23_owner_and_everyone_roles_are_not_deleted (rc : RolesConstants) (agent : LLAgent)
    (gd : LLGroupMgrGroupData) (self : LLPanelGroupRolesSubTab) (role_id : LLUUID)
    (hselected : self.getFirstSelected = some role_id) :
    ((role_id = 0 ∨ role_id = gd.mOwnerRole) →
        handleDeleteRole (some gd) self = (self, [RolesEffect.notification "GenericAlert"])
        ∧ (handleDeleteRole (some gd) self).2.any RolesEffect.isDeleteRole = false
        ∧ handleDeleteRole none self = (self, [])
        ∧ handleRoleSelectCanDelete rc agent (some gd) (some role_id) ≠ some true
        ∧ handleRoleSelectCanDelete rc agent none (some role_id) ≠ some true)
    ∧ (role_id ≠ 0 → role_id ≠ gd.mOwnerRole →
        (handleDeleteRole (some gd) self).2 = [RolesEffect.deleteRole role_id]) := by
  obtain ⟨index, hindex⟩ := getFirstSelected_index self role_id hselected
  constructor
  · intro hspecial
    have hres : handleDeleteRole (some gd) self
        = (self, [RolesEffect.notification "GenericAlert"]) := by
      simp [handleDeleteRole, hindex, hselected, hspecial]
    refine ⟨hres, ?_, rfl, ?_, ?_⟩
    · rw [hres]
      rfl
    · simp only [handleRoleSelectCanDelete]
      rcases hspecial with h0 | how
      · cases gd.getRoleData role_id <;> simp [h0]
      · cases gd.getRoleData role_id <;> simp [how]
    · simp [handleRoleSelectCanDelete]
  · intro h0 how
    simp [handleDeleteRole, hindex, hselected, h0, how]

theorem C23_owner_and_everyone_roles_are_not_deleted_witness :
    (handleDeleteRole (some sampleGroup)
        { mRolesList := [0, 9, 10], mRolesSelected := some 2, mActionSelected := none,
          mHasModal := false, mHasRoleChange := false }).2 = [RolesEffect.deleteRole 10] :=
  (C23_owner_and_everyone_roles_are_not_deleted sampleConstants sampleAgent sampleGroup
    { mRolesList := [0, 9, 10], mRolesSelected := some 2, mActionSelected := none,
      mHasModal := false, mHasRoleChange := false } 10 rfl).2 (by decide) (by decide)

/-- C24. With group data, a selected role and a selected action whose power is
`GP_ROLE_ASSIGN_MEMBER` or `GP_ROLE_CHANGE_ACTIONS`: `handleActionCheck` on a checked box
with `force = false` makes no `addRolePower` or `removeRolePower` call and resets the box to
unchecked, and, when the role data is found, raises the warning; `addActionCB` then makes
exactly the call `addRolePower(role, power)` and checks the box when the answer is option
0, and makes no call and leaves the box unchecked for any other answer. -/
theorem C24_dangerous_action_needs_confirmation (rc : RolesConstants)
    (gd : LLGroupMgrGroupData) (self : LLPanelGroupRolesSubTab) (role_id : LLUUID)
    (power : U64) (hrole : self.getFirstSelected = some role_id)
    (haction : self.mActionSelected = some power)
    (hdanger : power = rc.GP_ROLE_ASSIGN_MEMBER ∨ power = rc.GP_ROLE_CHANGE_ACTIONS) :
    (handleActionCheck rc (some gd) true false self).2.1 = false
    ∧ (handleActionCheck rc (some gd) true false self).2.2.any RolesEffect.isPowerChange = false
    ∧ (∀ rd, gd.getRoleData role_id = some rd →
        (handleActionCheck rc (some gd) true false self).2.2
          = [RolesEffect.notification
              (if rc.GP_ROLE_CHANGE_ACTIONS == power then "AssignDangerousAbilityWarning"
               else "AssignDangerousActionWarning")]
        ∧ (handleActionCheck rc (some gd) true false self).1.mHasModal = true)
    ∧ (addActionCB rc (some gd) 0 false (handleActionCheck rc (some gd) true false self).1).2
        = (true, [RolesEffect.addRolePower role_id power])
    ∧ ∀ option, option ≠ 0 →
        (addActionCB rc (some gd) option false
          (handleActionCheck rc (some gd) true false self).1).2 = (false, []) := by
  have hcond : (rc.GP_ROLE_ASSIGN_MEMBER == power || rc.GP_ROLE_CHANGE_ACTIONS == power)
      = true := by
    rcases hdanger with h | h
    · simp [h]
    · simp [h]
  have hsel : ∀ (a : Option U64) (m c : Bool),
      ({ mRolesList := self.mRolesList, mRolesSelected := self.mRolesSelected,
         mActionSelected := a, mHasModal := m, mHasRoleChange := c } :
        LLPanelGroupRolesSubTab).getFirstSelected = some role_id := by
    intro a m c
    rw [← hrole]
    rfl
  cases hrd : gd.getRoleData role_id with
  | none =>
    have hfirst : handleActionCheck rc (some gd) true false self
        = ({ self with mHasRoleChange := true }, false, []) := by
      simp [handleActionCheck, hrole, haction, hcond, hrd]
    rw [hfirst]
    refine ⟨rfl, rfl, ?_, ?_, ?_⟩
    · intro rd hc
      simp at hc
    · simp [addActionCB, handleActionCheck, haction, hsel]
    · intro option hne
      simp [addActionCB, hne]
  | some rd =>
    have hfirst : handleActionCheck rc (some gd) true false self
        = ({ self with mHasModal := true, mHasRoleChange := true }, false,
           [RolesEffect.notification
              (if rc.GP_ROLE_CHANGE_ACTIONS == power then "AssignDangerousAbilityWarning"
               else "AssignDangerousActionWarning")]) := by
      simp [handleActionCheck, hrole, haction, hcond, hrd]
    rw [hfirst]
    refine ⟨rfl, ?_, ?_, ?_, ?_⟩
    · simp [RolesEffect.isPowerChange]
    · intro rd2 _
      exact ⟨rfl, rfl⟩
    · simp [addActionCB, handleActionCheck, haction, hsel]
    · intro option hne
      simp [addActionCB, hne]

theorem C24_dangerous_action_needs_confirmation_witness :
    (addActionCB sampleConstants (some sampleGroup) 0 false
        (handleActionCheck sampleConstants (some sampleGroup) true false
          { mRolesList := [0, 9, 10], mRolesSelected := some 2, mActionSelected := some 0x20,
            mHasModal := false, mHasRoleChange := false }).1).2
      = (true, [RolesEffect.addRolePower 10 0x20]) :=
  (C24_dangerous_action_needs_confirmation sampleConstants sampleGroup
    { mRolesList := [0, 9, 10], mRolesSelected := some 2, mActionSelected := some 0x20,
      mHasModal := false, mHasRoleChange := false } 10 0x20 rfl rfl (Or.inl rfl)).2.2.2.1

/-! ## Changing the group -/

/-- C25, the code. `LLPanelGroupMembersSubTab::setGroupID` writes none of the tracker
fields: after an Owner-role `RMC_ADD` for member `2` was recorded for group `5`,
`setGroupID(6)` leaves the entry in `mMemberRoleChangeData`, `mNumOwnerAdditions` at 1 and
`needsApply` true. -/
theorem C25_setGroupID_keeps_pending_changes (ty : CounterTy) :
    (∀ (id : LLUUID) (p : MembersSubTabPanel),
        (LLPanelGroupMembersSubTab.setGroupID id p).tracker = p.tracker)
    ∧ (LLPanelGroupMembersSubTab.setGroupID 6
        { mGroupID := 5, mActivated := true, hasSearchEditor := true, base := .new,
          tracker := handleRoleCheck ty (some sampleGroup) [2] 9 RMC_ADD .new }).mGroupID = 6
    ∧ (LLPanelGroupMembersSubTab.setGroupID 6
        { mGroupID := 5, mActivated := true, hasSearchEditor := true, base := .new,
          tracker := handleRoleCheck ty (some sampleGroup) [2] 9 RMC_ADD
            .new }).tracker.mMemberRoleChangeData = [(2, [(9, RMC_ADD)])]
    ∧ (LLPanelGroupMembersSubTab.setGroupID 6
        { mGroupID := 5, mActivated := true, hasSearchEditor := true, base := .new,
          tracker := handleRoleCheck ty (some sampleGroup) [2] 9 RMC_ADD
            .new }).tracker.mNumOwnerAdditions = 1
    ∧ needsApply (LLPanelGroupMembersSubTab.setGroupID 6
        { mGroupID := 5, mActivated := true, hasSearchEditor := true, base := .new,
          tracker := handleRoleCheck ty (some sampleGroup) [2] 9 RMC_ADD .new }).tracker
        = true := by
  constructor
  · intro id p
    unfold LLPanelGroupMembersSubTab.setGroupID LLPanelGroupSubTab.setGroupID
    cases p.hasSearchEditor <;> rfl
  · cases ty <;> decide

/-! ## The Owner-role row and the permission to add to a role -/

theorem getMembersInRole_pos (role : LLGroupRoleData) (selected_members : List LLUUID)
    (x : LLUUID) (hx : x ∈ selected_members) (hrole : x ∈ role.mMemberIDs) :
    role.getMembersInRole selected_members > 0 := by
  unfold LLGroupRoleData.getMembersInRole
  have hmem : x ∈ selected_members.filter (fun m => role.mMemberIDs.contains m) :=
    List.mem_filter.mpr ⟨hx, List.elem_iff.mpr hrole⟩
  have hlen : 0 < (selected_members.filter (fun m => role.mMemberIDs.contains m)).length :=
    List.length_pos_of_mem hmem
  exact Int.ofNat_lt.mpr hlen

theorem otherOwnerSelected_of_mem (agent : LLAgent) (gd : LLGroupMgrGroupData)
    (l : List LLUUID) (x : LLUUID) (hx : x ∈ l) (hne : x ≠ agent.getID)
    (hholds : holdsRole gd x gd.mOwnerRole = true) : otherOwnerSelected agent gd l = true := by
  induction l with
  | nil => simp at hx
  | cons m rest ih =>
    simp only [otherOwnerSelected]
    by_cases hm : m = agent.getID
    · simp only [hm, if_true]
      rcases List.mem_cons.mp hx with h | h
      · exact absurd (h.trans hm) hne
      · exact ih h
    · simp only [hm, if_false]
      rcases List.mem_cons.mp hx with h | h
      · subst h
        unfold holdsRole at hholds
        cases hf : mapFind gd.mMembers x with
        | none => simp [hf] at hholds
        | some md =>
          cases md with
          | none => simp [hf] at hholds
          | some member_data =>
            simp only [hf] at hholds
            simp [hholds]
      · cases hf : mapFind gd.mMembers m with
        | none => exact ih h
        | some md =>
          cases md with
          | none => exact ih h
          | some member_data =>
            simp only
            split
            · rfl
            · exact ih h

theorem otherOwnerSelected_of_none (agent : LLAgent) (gd : LLGroupMgrGroupData)
    (l : List LLUUID)
    (h : ∀ m ∈ l, m ≠ agent.getID → holdsRole gd m gd.mOwnerRole = false) :
    otherOwnerSelected agent gd l = false := by
  induction l with
  | nil => rfl
  | cons m rest ih =>
    have ihr := ih (fun k hk => h k (List.mem_cons_of_mem _ hk))
    simp only [otherOwnerSelected]
    by_cases hm : m = agent.getID
    · simp only [hm, if_true]
      exact ihr
    · simp only [hm, if_false]
      have hh := h m (List.mem_cons_self _ _) hm
      unfold holdsRole at hh
      cases hf : mapFind gd.mMembers m with
      | none => exact ihr
      | some md =>
        cases md with
        | none => exact ihr
        | some member_data =>
          simp only [hf] at hh
          simp [hh, ihr]

/-- C26. For the row of the Owner role in `handleMemberSelect`, with the role's member list
agreeing with the members' role lists: when a committed member of the Owner role other than
the acting agent is selected, `cb_enable` is false whatever the agent's powers; when the
acting agent is selected and is the only selected owner, `cb_enable` is exactly
`agentCanRemoveFromRole`. -/
theorem C26_owner_row_enabling (rc : RolesConstants) (agent : LLAgent)
    (gd : LLGroupMgrGroupData) (selected_members : List LLUUID) (owner_role : LLGroupRoleData)
    (hagree : ∀ m, m ∈ owner_role.mMemberIDs ↔ holdsRole gd m gd.mOwnerRole = true) :
    (∀ x ∈ selected_members, x ≠ agent.getID → holdsRole gd x gd.mOwnerRole = true →
        handleMemberSelectCbEnable rc agent gd selected_members gd.mOwnerRole owner_role
          = some false)
    ∧ (agent.getID ∈ selected_members → holdsRole gd agent.getID gd.mOwnerRole = true →
        (∀ m ∈ selected_members, m ≠ agent.getID → holdsRole gd m gd.mOwnerRole = false) →
        handleMemberSelectCbEnable rc agent gd selected_members gd.mOwnerRole owner_role
          = some (agentCanRemoveFromRole rc agent gd.mOwnerRole)) := by
  constructor
  · intro x hx hne hholds
    have hpos := getMembersInRole_pos owner_role selected_members x hx ((hagree x).mpr hholds)
    have hother := otherOwnerSelected_of_mem agent gd selected_members x hx hne hholds
    unfold handleMemberSelectCbEnable
    simp only [hpos, if_true, hother, decide_True, Bool.and_true]
    cases agentCanRemoveFromRole rc agent gd.mOwnerRole <;> simp
  · intro hagent hholds hothers
    have hpos := getMembersInRole_pos owner_role selected_members agent.getID hagent
      ((hagree _).mpr hholds)
    have hother := otherOwnerSelected_of_none agent gd selected_members hothers
    unfold handleMemberSelectCbEnable
    simp only [hpos, if_true, hother, decide_True, Bool.and_true]
    cases agentCanRemoveFromRole rc agent gd.mOwnerRole <;> simp

theorem C26_owner_row_enabling_witness :
    handleMemberSelectCbEnable sampleConstants sampleAgent ownersGroup [1, 2, 3] 9 ownerRoleData
      = some false :=
  (C26_owner_row_enabling sampleConstants sampleAgent ownersGroup [1, 2, 3] ownerRoleData
    (by
      intro m
      by_cases h1 : m = 1
      · subst h1; decide
      · by_cases h3 : m = 3
        · subst h3; decide
        · constructor
          · intro hm
            simp [ownerRoleData] at hm
            rcases hm with h | h
            · exact absurd h h1
            · exact absurd h h3
          · intro hh
            exfalso
            by_cases h2 : m = 2
            · subst h2
              revert hh
              decide
            · simp [holdsRole, ownersGroup, mapFind, Ne.symm h1, Ne.symm h2, Ne.symm h3] at hh)).1
    3 (by decide) (by decide) (by decide)

/-- C27. For an agent that is not godlike and is not a committed member of the Owner role,
`agentCanAddToRole(group, OwnerRole)` is never true, whatever powers the agent has: it is
false (or, where the member entry of the agent is a null pointer, has no result). For a
godlike agent, and for an agent who holds the Owner role, it is true for every role. -/
theorem C27_adding_to_the_owner_role (rc : RolesConstants) (agent : LLAgent)
    (gd : LLGroupMgrGroupData) :
    (agent.isGodlike = false → holdsRole gd agent.getID gd.mOwnerRole = false →
        agentCanAddToRole rc agent (some gd) gd.mOwnerRole ≠ some true
        ∧ (mapFind gd.mMembers agent.getID ≠ some none →
            agentCanAddToRole rc agent (some gd) gd.mOwnerRole = some false)
        ∧ ∀ role_id, agentCanAddToRole rc agent none role_id = some false)
    ∧ (agent.isGodlike = true → ∀ gdatap role_id,
        agentCanAddToRole rc agent gdatap role_id = some true)
    ∧ (holdsRole gd agent.getID gd.mOwnerRole = true → ∀ role_id,
        agentCanAddToRole rc agent (some gd) role_id = some true) := by
  refine ⟨?_, ?_, ?_⟩
  · intro hgod hnot
    unfold holdsRole at hnot
    refine ⟨?_, ?_, ?_⟩
    · unfold agentCanAddToRole
      cases hf : mapFind gd.mMembers agent.getID with
      | none => simp [hgod, hf]
      | some md =>
        cases md with
        | none => simp [hgod, hf]
        | some member_data =>
          simp only [hf] at hnot
          simp [hgod, hnot, hf]
    · intro hnull
      unfold agentCanAddToRole
      cases hf : mapFind gd.mMembers agent.getID with
      | none => simp [hgod, hf]
      | some md =>
        cases md with
        | none => exact absurd hf hnull
        | some member_data =>
          simp only [hf] at hnot
          simp [hgod, hnot, hf]
    · intro role_id
      simp [agentCanAddToRole, hgod]
  · intro hgod gdatap role_id
    simp [agentCanAddToRole, hgod]
  · intro hholds role_id
    unfold holdsRole at hholds
    unfold agentCanAddToRole
    cases hf : mapFind gd.mMembers agent.getID with
    | none => simp [hf] at hholds
    | some md =>
      cases md with
      | none => simp [hf] at hholds
      | some member_data =>
        simp only [hf] at hholds
        simp [hholds, hf]

theorem C27_adding_to_the_owner_role_witness :
    agentCanAddToRole sampleConstants { sampleAgent with getID := 2 } (some ownersGroup) 9
      = some false :=
  ((C27_adding_to_the_owner_role sampleConstants { sampleAgent with getID := 2 }
    ownersGroup).1 rfl (by decide)).2.1 (by decide)

/-! ## The mask of a member and the other members' intents -/

theorem powers_of_same_entry (gdatap : Option LLGroupMgrGroupData)
    (s1 s2 : LLPanelGroupMembersSubTab) (m : LLUUID)
    (h : mapFind s1.mMemberRoleChangeData m = mapFind s2.mMemberRoleChangeData m) :
    getAgentPowersBasedOnRoleChanges gdatap s1 m
      = getAgentPowersBasedOnRoleChanges gdatap s2 m := by
  unfold getAgentPowersBasedOnRoleChanges
  rw [h]

theorem handleRoleCheck_find_of_not_mem (ty : CounterTy) (gdatap : Option LLGroupMgrGroupData)
    (selection : List LLUUID) (r : LLUUID) (t : LLRoleMemberChangeType)
    (s : LLPanelGroupMembersSubTab) (m : LLUUID) (hm : m ∉ selection) :
    mapFind (handleRoleCheck ty gdatap selection r t s).mMemberRoleChangeData m
      = mapFind s.mMemberRoleChangeData m := by
  rcases handleRoleCheck_eq ty gdatap selection r t s with heq | ⟨gd, _, _, heq⟩
  · rw [heq]
  · rw [heq]
    exact foldl_member_find_of_not_mem _ _ _ _ _ _ _ hm

/-- C28. `getAgentPowersBasedOnRoleChanges(m)` reads the pending set through the entry of
`m` only: two pending sets with the same entry for `m` (or none in both) give the same
mask, for the same group data. So a `handleRoleCheck` with `m` not selected, which records
or cancels intents of other members, leaves the mask of `m` as it was. -/
theorem C28_mask_depends_on_own_entry (gdatap : Option LLGroupMgrGroupData) (m : LLUUID) :
    (∀ s1 s2 : LLPanelGroupMembersSubTab,
        mapFind s1.mMemberRoleChangeData m = mapFind s2.mMemberRoleChangeData m →
        getAgentPowersBasedOnRoleChanges gdatap s1 m
          = getAgentPowersBasedOnRoleChanges gdatap s2 m)
    ∧ ∀ (ty : CounterTy) (gdatap2 : Option LLGroupMgrGroupData) (selection : List LLUUID)
        (r : LLUUID) (t : LLRoleMemberChangeType) (s : LLPanelGroupMembersSubTab),
        m ∉ selection →
        getAgentPowersBasedOnRoleChanges gdatap (handleRoleCheck ty gdatap2 selection r t s) m
          = getAgentPowersBasedOnRoleChanges gdatap s m := by
  constructor
  · intro s1 s2 h
    exact powers_of_same_entry gdatap s1 s2 m h
  · intro ty gdatap2 selection r t s hm
    exact powers_of_same_entry gdatap _ _ m
      (handleRoleCheck_find_of_not_mem ty gdatap2 selection r t s m hm)

theorem C28_mask_depends_on_own_entry_witness :
    getAgentPowersBasedOnRoleChanges (some scenarioGroup)
        (handleRoleCheck .U32 (some scenarioGroup) [2, 3] 10 RMC_ADD
          (handleRoleCheck .U32 (some scenarioGroup) [1] 10 RMC_REMOVE .new)) 1
      = getAgentPowersBasedOnRoleChanges (some scenarioGroup)
        (handleRoleCheck .U32 (some scenarioGroup) [1] 10 RMC_REMOVE .new) 1 :=
  (C28_mask_depends_on_own_entry (some scenarioGroup) 1).2 .U32 (some scenarioGroup) [2, 3]
    10 RMC_ADD _ (by decide)

/-! ## The count shown for a role -/

/-- C29, the code after one click on a selection whose members differ in holding the role.
With members `1` (who holds role `10`) and `2` (who does not) selected,
`handleRoleCheck(10, RMC_ADD)` is called. For the selection {1, 2} the count of
`handleMemberSelect` is then 3, above the 2 selected members; for the selection {1} it is
2, and the box is tentative although the one selected member effectively holds the role.
After `handleRoleCheck(10, RMC_REMOVE)` instead, the count for the selection {2} is -1. -/
theorem C29_count_leaves_the_range :
    handleMemberSelectCount (handleRoleCheck .U32 (some mixedGroup) [1, 2] 10 RMC_ADD .new)
        [1, 2] 10 scenarioRoleA = 3
    ∧ handleMemberSelectCount (handleRoleCheck .U32 (some mixedGroup) [1, 2] 10 RMC_ADD .new)
        [1] 10 scenarioRoleA = 2
    ∧ handleMemberSelectTentative
        (handleRoleCheck .U32 (some mixedGroup) [1, 2] 10 RMC_ADD .new) [1] 10 scenarioRoleA
        = true
    ∧ effectivelyHolds mixedGroup
        (handleRoleCheck .U32 (some mixedGroup) [1, 2] 10 RMC_ADD .new) 1 10 = true
    ∧ handleMemberSelectCount
        (handleRoleCheck .U32 (some mixedGroup) [1, 2] 10 RMC_REMOVE .new) [2] 10 scenarioRoleA
        = -1
    ∧ handleMemberSelectTentative
        (handleRoleCheck .U32 (some mixedGroup) [1, 2] 10 RMC_REMOVE .new) [2] 10
        scenarioRoleA = true
    ∧ effectivelyHolds mixedGroup
        (handleRoleCheck .U32 (some mixedGroup) [1, 2] 10 RMC_REMOVE .new) 2 10 = false := by
  decide

end GroupRoles
